import Mathlib

/-
Verification of the endless-gaming data-collection pipeline.

This file gives a shallow embedding, in Lean, of the parts of the Python
source that the verified properties concern:

* the SteamSpy per-title metadata collector (collectors/steamspy_collector.py),
* the Steam Store storefront collector (collectors/steam_store_collector.py),
* the listing collector and its reconciler (collectors/steamspy_all_collector.py
  and collectors/steam_collector.py),
* the parallel batch orchestrator (workers/parallel_fetcher.py),
* the rate-limited request path (utils/rate_limiter.py, utils/http_client.py),
* the export projection (scripts/export_master_json.py).

Modelling conventions:
* The relational store is a list of rows; primary-key lookup is first-match
  search, and mutation of a fetched ORM object is first-match replacement.
* Timestamps are abstract naturals passed in explicitly (datetime.utcnow is
  a parameter called now).
* Python dict payloads are structures holding exactly the fields the code
  reads; dict truthiness (empty dict is falsy) and string truthiness (empty
  string is falsy) are modelled explicitly at each use site.
* Opaque JSON blob columns (price_overview, pc_requirements, screenshots,
  movies, genre and category arrays) are carried as opaque values; the code
  never inspects their contents.
* Outbound HTTP is modelled by the outcome it delivers: a value of type
  Except PyError carrying either the decoded JSON payload shape or the
  raised transport exception.
-/

namespace EndlessGaming

/-! ## Fetch status strings (models/game_metadata.py, class FetchStatus) -/

/-- Canonical string of FetchStatus.PENDING. -/
def statusPending : String := "pending"

/-- Canonical string of FetchStatus.SUCCESS. -/
def statusSuccess : String := "success"

/-- Canonical string of FetchStatus.FAILED. -/
def statusFailed : String := "failed"

/-- Canonical string of FetchStatus.NOT_FOUND. -/
def statusNotFound : String := "not_found"

/-- A raised Python exception, identified by its message. -/
structure PyError where
  msg : String
  deriving Repr, DecidableEq

/-- Tag name to vote count mapping, the value stored in the tags_json column. -/
abbrev Tags := List (String × Int)

/-! ## Price conversion (collectors/steamspy_collector.py, _convert_price)

The function receives raw_data.get('price'), documented as string, int, or
None.  Python truthiness decides the first guard; int(...) parsing decides
the rest. -/

/-- Possible runtime values of the price field handed to _convert_price. -/
inductive PriceInput where
  | absent
  | str (s : String)
  | int (n : Int)
  deriving Repr, DecidableEq

/-- Python truthiness of such a value: None, the empty string and the
integer zero are falsy; every other value here is truthy. -/
def PriceInput.truthy : PriceInput → Bool
  | .absent => false
  | .str s => s != ""
  | .int n => n != 0

/-- Python int(s) restricted to the shapes that occur here: an optional
sign followed by one or more decimal digits.  (The builtin also strips
whitespace and allows digit-group underscores; no SteamSpy price string
carries either, and no proved statement relies on any string being
unparseable.) -/
def pyParseInt (s : String) : Option Int :=
  let chars := s.data
  let signedCore : Bool × List Char :=
    match chars with
    | '-' :: rest => (true, rest)
    | '+' :: rest => (false, rest)
    | cs => (false, cs)
  let neg := signedCore.1
  let core := signedCore.2
  if core ≠ [] ∧ core.all Char.isDigit then
    let v : Int := core.foldl (fun acc c => acc * 10 + ((c.toNat : Int) - 48)) 0
    some (if neg then -v else v)
  else
    none

/-- Result of int(...) on the raw price value: a string goes through
pyParseInt, an integer parses to itself, None raises (no result). -/
def parsedCents : PriceInput → Option Int
  | .absent => none
  | .str s => pyParseInt s
  | .int n => some n

/-- Decimal rendering of cents/100 with exactly two fractional digits.
The source formats the float cents/100 with the .2f format; for every
magnitude this pipeline sees the float detour produces exactly this exact
decimal string. -/
def formatCents (cents : Int) : String :=
  let a := cents.natAbs
  let whole := a / 100
  let frac := a % 100
  let fracStr := (if frac < 10 then "0" else "") ++ toString frac
  (if cents < 0 then "-" else "") ++ toString whole ++ "." ++ fracStr

/-- SteamSpyMetadataCollector._convert_price: a falsy input returns None;
otherwise the value is parsed with int(...), zero becomes "Free", any other
parsed value is formatted with two decimals, and a parse failure
(ValueError) returns None. -/
def convert_price (price_cents : PriceInput) : Option String :=
  if ¬ price_cents.truthy then none
  else
    match parsedCents price_cents with
    | some cents => if cents = 0 then some "Free" else some (formatCents cents)
    | none => none

/-! ## The request path used by the collectors
(utils/rate_limiter.py, SimpleRateLimiter.make_request, and
utils/http_client.py, HTTPClient.get_with_retry)

A request sequence is abstracted by the outcome of each successive
underlying GET: attempt n yields either the decoded JSON payload or the
raised httpx.HTTPError.  Each function returns its final outcome together
with the list of sleep durations (in seconds) it performed between
attempts. -/

/-- SimpleRateLimiter.make_request after the rate-gate admission: one GET;
if it raises an httpx.HTTPError, sleep one second and retry exactly once;
the outcome of the second attempt, success or failure, is returned to the
caller as is. -/
def make_request {α : Type} (attempt : Nat → Except PyError α) :
    Except PyError α × List Nat :=
  match attempt 0 with
  | .ok j => (.ok j, [])
  | .error _ => (attempt 1, [1])

/-- HTTPClient.get_with_retry: the tenacity policy stop_after_attempt(3)
with wait_exponential(multiplier=1, min=1, max=10) performs up to three
attempts with waits of 1 and then 2 seconds before the retries. -/
def get_with_retry {α : Type} (attempt : Nat → Except PyError α) :
    Except PyError α × List Nat :=
  match attempt 0 with
  | .ok j => (.ok j, [])
  | .error _ =>
    match attempt 1 with
    | .ok j => (.ok j, [1])
    | .error _ =>
      match attempt 2 with
      | .ok j => (.ok j, [1, 2])
      | .error e => (.error e, [1, 2])

/-- Attempt trace used against claim C3: the first two GETs fail with
transient errors and the third would succeed. -/
def c3Trace : Nat → Except PyError String :=
  fun n => if n = 0 then .error ⟨"timeout 1"⟩
    else if n = 1 then .error ⟨"timeout 2"⟩
    else .ok "payload"

/-! ## Parallel batch orchestrator
(workers/parallel_fetcher.py, ParallelMetadataFetcher)

The two injected collectors are abstracted by the outcome of running them
over one batch; games are split exactly as range(0, len(games),
batch_size) slices the list. -/

/-- A cataloged game row (models/game.py, class Game).  The created_at
column never influences any modelled behaviour and is omitted; updated_at
is kept because the reconciler writes it. -/
structure Game where
  app_id : Int
  name : String
  is_active : Bool
  updated_at : Nat
  deriving Repr, DecidableEq

/-- Structural worker for chunkBatches: the fuel argument starts at the
list length and strictly dominates it throughout, so the fuel-exhausted
branch is unreachable for positive batch sizes. -/
def chunkAux {α : Type} (batch_size : Nat) : Nat → List α → List (List α)
  | _, [] => []
  | 0, _ :: _ => []
  | fuel + 1, g :: gs =>
    (g :: gs).take batch_size :: chunkAux batch_size fuel ((g :: gs).drop batch_size)

/-- Slicing games[i:i+batch_size] for i in range(0, len(games),
batch_size).  A zero batch_size raises ValueError in Python and never
occurs (the constructor default is 50). -/
def chunkBatches {α : Type} (batch_size : Nat) (l : List α) : List (List α) :=
  if batch_size = 0 then [] else chunkAux batch_size l.length l

/-- ParallelMetadataFetcher.process_batch: an empty batch short-circuits;
otherwise the SteamSpy collector runs over the batch, then the optional
Steam Store collector, and the batch itself is returned; an exception from
either collector propagates. -/
def process_batch (collectMeta : List Game → Except PyError Unit)
    (collectStore : Option (List Game → Except PyError Unit))
    (games : List Game) : Except PyError (List Game) :=
  if games.isEmpty then .ok []
  else
    match collectMeta games with
    | .error e => .error e
    | .ok _ =>
      match collectStore with
      | none => .ok games
      | some cs =>
        match cs games with
        | .error e => .error e
        | .ok _ => .ok games

/-- asyncio.gather over the batch tasks with the default
return_exceptions=False: if every task succeeds the list of results is
returned in order, otherwise the exception of the first failing task
propagates to the awaiter and no result list is produced. -/
def gatherResults {α : Type} : List (Except PyError α) → Except PyError (List α)
  | [] => .ok []
  | .error e :: _ => .error e
  | .ok a :: rest =>
    match gatherResults rest with
    | .ok as' => .ok (a :: as')
    | .error e => .error e

/-- ParallelMetadataFetcher.process_games_parallel: split into batches,
dispatch one coroutine per batch, await them with asyncio.gather. -/
def process_games_parallel (collectMeta : List Game → Except PyError Unit)
    (collectStore : Option (List Game → Except PyError Unit))
    (batch_size : Nat) (games : List Game) : Except PyError (List (List Game)) :=
  if games.isEmpty then .ok []
  else
    gatherResults ((chunkBatches batch_size games).map
      (process_batch collectMeta collectStore))

/-! ## Reconciler (collectors/steamspy_all_collector.py,
SteamSpyAllCollector.save_games_to_database, and
collectors/steam_collector.py, SteamCollector.save_games_to_database)

The games table is a list of rows; session.query(...).first() is
first-match search and mutating the fetched ORM object is first-match
replacement.  The IntegrityError branch of the source (roll back the one
offending insert and continue) is not modelled: the modelled store has no
constraint that the modelled operations can violate. -/

/-- Operation counts returned by save_games_to_database. -/
structure SaveCounts where
  new_games : Nat
  updated_games : Nat
  deactivated_games : Nat
  deriving Repr, DecidableEq

/-- The games table. -/
abbrev GameStore := List Game

/-- session.query(Game).filter(Game.app_id == aid).first() -/
def findGame (store : GameStore) (aid : Int) : Option Game :=
  store.find? (fun g => g.app_id == aid)

/-- Mutation of the ORM object returned by first(): replace the first row
carrying the key. -/
def updateFirstGame (store : GameStore) (aid : Int) (f : Game → Game) : GameStore :=
  match store with
  | [] => []
  | g :: rest =>
    if g.app_id == aid then f g :: rest else g :: updateFirstGame rest aid f

/-- Identifier column of the whole table. -/
def storeIds (store : GameStore) : List Int :=
  store.map (·.app_id)

/-- Predicate for a row that the listing reconciler would hold active. -/
def ActiveIn (store : GameStore) (aid : Int) : Prop :=
  ∃ g ∈ store, g.app_id = aid ∧ g.is_active = true

instance (store : GameStore) (aid : Int) : Decidable (ActiveIn store aid) := by
  unfold ActiveIn
  infer_instance

/-- Shared shape of the two upsert loops: walk the fresh list in order;
an existing row (found by key) is replaced by upd g applied to it and
contributes updCount g e to the updated tally; a missing row is inserted
at the end of the table as ins g and counted as created. -/
def upsertCore (upd : Game → Game → Game) (updCount : Game → Game → Nat)
    (ins : Game → Game) : List Game → GameStore → GameStore × Nat × Nat
  | [], store => (store, 0, 0)
  | g :: rest, store =>
    match findGame store g.app_id with
    | some e =>
      let store' := updateFirstGame store g.app_id (upd g)
      let r := upsertCore upd updCount ins rest store'
      (r.1, r.2.1, r.2.2 + updCount g e)
    | none =>
      let r := upsertCore upd updCount ins rest (store ++ [ins g])
      (r.1, r.2.1 + 1, r.2.2)

/-- Upsert loop of SteamSpyAllCollector.save_games_to_database: an
existing row gets its name overwritten, is reactivated, is timestamped and
is counted as updated unconditionally (whether or not anything changed); a
missing row is inserted as given. -/
def upsertGames (now : Nat) : List Game → GameStore → GameStore × Nat × Nat :=
  upsertCore
    (fun g e => { e with name := g.name, is_active := true, updated_at := now })
    (fun _ _ => 1)
    (fun g => g)

/-- Shared shape of the two deactivation sweeps: every active row whose
identifier is outside the fresh identifier set is replaced by flip of
itself and counted; every other row is kept as is. -/
def sweepCore (flip : Game → Game) (current_app_ids : List Int) :
    GameStore → GameStore × Nat
  | [] => ([], 0)
  | g :: rest =>
    let r := sweepCore flip current_app_ids rest
    if g.is_active && !current_app_ids.contains g.app_id then
      (flip g :: r.1, r.2 + 1)
    else
      (g :: r.1, r.2)

/-- Deactivation sweep of SteamSpyAllCollector.save_games_to_database:
a swept row is set inactive and timestamped. -/
def deactivateSweep (now : Nat) (current_app_ids : List Int) :
    GameStore → GameStore × Nat :=
  sweepCore (fun g => { g with is_active := false, updated_at := now })
    current_app_ids

/-- SteamSpyAllCollector.save_games_to_database: upsert every fresh game,
then, only when deactivate_missing is set, run the deactivation sweep
against the fresh identifier set. -/
def save_games_to_database (now : Nat) (games : List Game) (store : GameStore)
    (deactivate_missing : Bool) : GameStore × SaveCounts :=
  let current_app_ids := games.map (·.app_id)
  let r := upsertGames now games store
  if deactivate_missing then
    let d := deactivateSweep now current_app_ids r.1
    (d.1, ⟨r.2.1, r.2.2, d.2⟩)
  else
    (r.1, ⟨r.2.1, r.2.2, 0⟩)

/-- Upsert loop of SteamCollector.save_games_to_database: an existing row
is renamed and reactivated, counted as updated once per field that
actually changed (a name change and a reactivation each count one, read
off the row before mutation); a missing row is inserted and picks up the
is_active column default True at flush.  No timestamp column is written
by this collector. -/
def upsertGamesSC : List Game → GameStore → GameStore × Nat × Nat :=
  upsertCore
    (fun g e => { e with name := g.name, is_active := true })
    (fun g e =>
      (if e.name ≠ g.name then 1 else 0) + (if e.is_active = false then 1 else 0))
    (fun g => { g with is_active := true })

/-- Deactivation sweep of SteamCollector.save_games_to_database: identical
membership logic, but without a timestamp write. -/
def deactivateSweepSC (current_app_ids : List Int) :
    GameStore → GameStore × Nat :=
  sweepCore (fun g => { g with is_active := false }) current_app_ids

/-- SteamCollector.save_games_to_database: change-sensitive upsert, then
an unconditional deactivation sweep. -/
def save_games_sc (games : List Game) (store : GameStore) :
    GameStore × SaveCounts :=
  let current_app_ids := games.map (·.app_id)
  let r := upsertGamesSC games store
  let d := deactivateSweepSC current_app_ids r.1
  (d.1, ⟨r.2.1, r.2.2, d.2⟩)

/-! ## Listing run (collectors/steamspy_all_collector.py,
SteamSpyAllCollector.collect_and_save_games)

A completed run is the sequence of already-fetched, already-parsed pages
reconciled in increasing page order; the page counter starts at zero and
deactivate_missing is (page == 0).  Fetch failures and the empty-page stop
condition end the loop early and simply shorten the page list. -/

/-- The reconciliation loop from an arbitrary page counter onward. -/
def runListingFrom (now : Nat) : Nat → List (List Game) → GameStore → GameStore
  | _, [], store => store
  | page, pg :: rest, store =>
    runListingFrom now (page + 1) rest
      (save_games_to_database now pg store (page == 0)).1

/-- A completed listing run over its parsed pages. -/
def runListing (now : Nat) (pages : List (List Game)) (store : GameStore) :
    GameStore :=
  runListingFrom now 0 pages store

/-! ## Statistics records and the SteamSpy per-title collector
(models/game_metadata.py and collectors/steamspy_collector.py) -/

/-- A game_metadata row.  Field defaults mirror the column defaults that
apply when the collector builds a record without naming the field; the
languages column is carried verbatim. -/
structure GameMetadata where
  app_id : Int
  developer : Option String := none
  publisher : Option String := none
  owners_estimate : Option String := none
  positive_reviews : Option Int := none
  negative_reviews : Option Int := none
  score_rank : Option Int := none
  average_playtime_forever : Option Int := none
  average_playtime_2weeks : Option Int := none
  price : Option String := none
  genre : Option String := none
  languages : Option String := none
  tags_json : Option Tags := none
  last_updated : Nat := 0
  fetch_attempts : Nat := 0
  fetch_status : String := statusPending
  deriving Repr, DecidableEq

/-- Runtime value of raw_data.get('tags'): missing, present but not a
dict, or a dict of tag votes. -/
inductive TagsField where
  | missing
  | notDict
  | dict (ts : Tags)
  deriving Repr, DecidableEq

/-- The fields of a per-title SteamSpy payload that parse_steamspy_data
reads, each one optional exactly as dict.get makes it. -/
structure SsPayload where
  appid : Option Int
  developer : Option String
  publisher : Option String
  owners : Option String
  positive : Option Int
  negative : Option Int
  score_rank : Option Int
  average_forever : Option Int
  average_2weeks : Option Int
  price : PriceInput
  tags : TagsField
  genre : Option String
  languages : Option String
  deriving Repr, DecidableEq

/-- A decoded SteamSpy per-title response: either the empty JSON object
(falsy in the not-found check) or an object with the payload fields. -/
inductive SsResponse where
  | empty
  | obj (p : SsPayload)
  deriving Repr, DecidableEq

/-- Python truthiness of an optional integer field: missing and zero are
falsy. -/
def truthyOptInt : Option Int → Bool
  | none => false
  | some n => n != 0

/-- SteamSpyMetadataCollector.parse_steamspy_data: build a success record
from the payload; the price goes through _convert_price and a non-dict
tags value is normalised to None. -/
def parse_steamspy_data (app_id : Int) (raw : SsPayload) : GameMetadata :=
  let price := convert_price raw.price
  let tags_json : Option Tags :=
    match raw.tags with
    | .dict ts => some ts
    | _ => none
  { app_id := app_id
    developer := raw.developer
    publisher := raw.publisher
    owners_estimate := raw.owners
    positive_reviews := raw.positive
    negative_reviews := raw.negative
    score_rank := raw.score_rank
    average_playtime_forever := raw.average_forever
    average_playtime_2weeks := raw.average_2weeks
    price := price
    genre := raw.genre
    languages := raw.languages
    tags_json := tags_json
    fetch_status := statusSuccess
    fetch_attempts := 1 }

/-- SteamSpyMetadataCollector.fetch_game_metadata given the outcome the
rate-limited request path delivered: a raised exception becomes a failed
record, an empty payload or a falsy appid field becomes a not-found
record, anything else is parsed as a success; every branch sets
fetch_attempts to one. -/
def fetch_game_metadata (app_id : Int) (outcome : Except PyError SsResponse) :
    GameMetadata :=
  match outcome with
  | .error _ =>
    { app_id := app_id, fetch_status := statusFailed, fetch_attempts := 1 }
  | .ok resp =>
    match resp with
    | .empty =>
      { app_id := app_id, fetch_status := statusNotFound, fetch_attempts := 1 }
    | .obj p =>
      if truthyOptInt p.appid then
        parse_steamspy_data app_id p
      else
        { app_id := app_id, fetch_status := statusNotFound, fetch_attempts := 1 }

/-- Outcome counters of the collection loops in
collect_metadata_for_games and collect_storefront_data_for_games. -/
structure FetchCounts where
  successful_fetches : Nat
  failed_fetches : Nat
  not_found : Nat
  deriving Repr, DecidableEq

/-- The counter update of both collection loops over the statuses of the
processed records, in processing order: success and not_found have their
own counters and everything else counts as failed. -/
def tallyStatuses : List String → FetchCounts
  | [] => ⟨0, 0, 0⟩
  | st :: rest =>
    let c := tallyStatuses rest
    if st = statusSuccess then
      { c with successful_fetches := c.successful_fetches + 1 }
    else if st = statusNotFound then
      { c with not_found := c.not_found + 1 }
    else
      { c with failed_fetches := c.failed_fetches + 1 }

/-! ## Storefront records and the Steam Store collector
(models/storefront_data.py and collectors/steam_store_collector.py)

Structured JSON columns whose contents the code never inspects (developer
and publisher arrays, genre and category objects, screenshot and movie
arrays, price and requirement blobs) are carried as opaque strings. -/

/-- A storefront_data row, including the screenshot and movie arrays the
collector fills in. -/
structure StorefrontData where
  app_id : Int
  short_description : Option String := none
  detailed_description : Option String := none
  is_free : Option Bool := none
  required_age : Option Int := none
  website : Option String := none
  header_image : Option String := none
  release_date : Option String := none
  developers : Option (List String) := none
  publishers : Option (List String) := none
  genres : Option String := none
  categories : Option String := none
  supported_languages : Option String := none
  price_overview : Option String := none
  pc_requirements : Option String := none
  screenshots : Option String := none
  movies : Option String := none
  last_updated : Nat := 0
  fetch_attempts : Nat := 0
  fetch_status : String := statusPending
  deriving Repr, DecidableEq

/-- The nested release_date object of a storefront payload. -/
structure SfRelDate where
  date : Option String
  deriving Repr, DecidableEq

/-- The data object of a storefront payload entry: the fields
parse_steam_store_data reads. -/
structure SfRaw where
  short_description : Option String := none
  detailed_description : Option String := none
  is_free : Option Bool := none
  required_age : Option Int := none
  website : Option String := none
  header_image : Option String := none
  release_date : Option SfRelDate := none
  developers : Option (List String) := none
  publishers : Option (List String) := none
  genres : Option String := none
  categories : Option String := none
  supported_languages : Option String := none
  price_overview : Option String := none
  pc_requirements : Option String := none
  screenshots : Option String := none
  movies : Option String := none
  deriving Repr, DecidableEq

/-- One entry of the appdetails response object: success flag plus an
optional data object (a falsy empty entry is modelled as success false,
which takes the same branch). -/
structure SfEntry where
  success : Bool
  data : Option SfRaw
  deriving Repr, DecidableEq

/-- The appdetails response: a JSON object keyed by the decimal string of
the requested identifier. -/
abbrev SfResponse := List (String × SfEntry)

/-- SteamStoreCollector.parse_steam_store_data: build a success record;
the release date string is extracted only when the nested object and its
date field are both truthy. -/
def parse_steam_store_data (app_id : Int) (raw : SfRaw) : StorefrontData :=
  let release_date : Option String :=
    match raw.release_date with
    | some rd =>
      match rd.date with
      | some d => if d ≠ "" then some d else none
      | none => none
    | none => none
  { app_id := app_id
    short_description := raw.short_description
    detailed_description := raw.detailed_description
    is_free := raw.is_free
    required_age := raw.required_age
    website := raw.website
    header_image := raw.header_image
    release_date := release_date
    developers := raw.developers
    publishers := raw.publishers
    genres := raw.genres
    categories := raw.categories
    supported_languages := raw.supported_languages
    price_overview := raw.price_overview
    pc_requirements := raw.pc_requirements
    screenshots := raw.screenshots
    movies := raw.movies
    fetch_status := statusSuccess
    fetch_attempts := 1 }

/-- The empty dict that app_data.get('data', ...) falls back to. -/
def SfRaw.emptyDict : SfRaw := {}

/-- SteamStoreCollector.fetch_storefront_data given the outcome the
rate-limited request path delivered: a raised exception becomes a failed
record; a missing entry for the requested identifier or an entry whose
success flag is falsy becomes a not-found record; otherwise the data
object (defaulting to the empty dict) is parsed as a success; every
branch sets fetch_attempts to one. -/
def fetch_storefront_data (app_id : Int) (outcome : Except PyError SfResponse) :
    StorefrontData :=
  match outcome with
  | .error _ =>
    { app_id := app_id, fetch_status := statusFailed, fetch_attempts := 1 }
  | .ok resp =>
    match resp.lookup (toString app_id) with
    | none =>
      { app_id := app_id, fetch_status := statusNotFound, fetch_attempts := 1 }
    | some entry =>
      if entry.success then
        parse_steam_store_data app_id (entry.data.getD SfRaw.emptyDict)
      else
        { app_id := app_id, fetch_status := statusNotFound, fetch_attempts := 1 }

/-- The storefront_data table. -/
abbrev SfStore := List StorefrontData

/-- session.query(StorefrontData).filter_by(app_id=...).first() -/
def findSf (store : SfStore) (aid : Int) : Option StorefrontData :=
  store.find? (fun r => r.app_id == aid)

/-- First-match replacement, the mutation of the fetched ORM object. -/
def updateFirstSf (store : SfStore) (aid : Int)
    (f : StorefrontData → StorefrontData) : SfStore :=
  match store with
  | [] => []
  | r :: rest =>
    if r.app_id == aid then f r :: rest else r :: updateFirstSf rest aid f

/-- The update branch of
SteamStoreCollector.save_storefront_data_to_database: the fourteen
presentation columns and the two fetch columns are copied from the fresh
record onto the existing row; no other column is assigned. -/
def updateStorefrontRow (existing incoming : StorefrontData) : StorefrontData :=
  { existing with
    short_description := incoming.short_description
    detailed_description := incoming.detailed_description
    is_free := incoming.is_free
    required_age := incoming.required_age
    website := incoming.website
    header_image := incoming.header_image
    release_date := incoming.release_date
    developers := incoming.developers
    publishers := incoming.publishers
    genres := incoming.genres
    categories := incoming.categories
    supported_languages := incoming.supported_languages
    price_overview := incoming.price_overview
    pc_requirements := incoming.pc_requirements
    fetch_status := incoming.fetch_status
    fetch_attempts := incoming.fetch_attempts }

/-- SteamStoreCollector.save_storefront_data_to_database: for each fresh
record, update the existing row through the update branch or insert the
fresh record, tallying updated and created rows. -/
def save_storefront_data_to_database (rows : List StorefrontData)
    (store : SfStore) : SfStore × Nat × Nat :=
  match rows with
  | [] => (store, 0, 0)
  | row :: rest =>
    match findSf store row.app_id with
    | some _ =>
      let store' := updateFirstSf store row.app_id
        (fun existing => updateStorefrontRow existing row)
      let r := save_storefront_data_to_database rest store'
      (r.1, r.2.1, r.2.2 + 1)
    | none =>
      let r := save_storefront_data_to_database rest (store ++ [row])
      (r.1, r.2.1 + 1, r.2.2)

/-! ## Export projection (scripts/export_master_json.py)

The query joins games to game_metadata (an inner join), filters, orders
by score_rank with the SQLite default treatment of NULL (ascending, NULL
first), limits to 1000 rows, and the loop then drops records without
tags.  A database row is a game together with its optional relations. -/

/-- A joined row of the store as the export script sees it. -/
structure StoreRow where
  game : Game
  game_metadata : Option GameMetadata
  storefront_data : Option StorefrontData
  deriving Repr, DecidableEq

/-- The games table with its relations. -/
abbrev Db := List StoreRow

/-- The owner buckets treated as one million or more owners. -/
def million_plus_ranges : List String :=
  ["1,000,000 .. 2,000,000",
   "2,000,000 .. 5,000,000",
   "5,000,000 .. 10,000,000",
   "10,000,000 .. 20,000,000",
   "20,000,000 .. 50,000,000",
   "50,000,000 .. 100,000,000",
   "100,000,000 .. 200,000,000"]

/-- The WHERE clause of the export query: the inner join demands a
metadata row; the game must be active, its owner estimate must be in the
million-plus list, and its tags column must be neither NULL nor the
serialised empty object.  (The guard against an empty-string tags value
cannot fire: the collector only ever stores a dict or NULL.) -/
def masterFilter (row : StoreRow) : Bool :=
  match row.game_metadata with
  | none => false
  | some md =>
    row.game.is_active
      && (match md.owners_estimate with
          | some s => million_plus_ranges.contains s
          | none => false)
      && md.tags_json.isSome
      && md.tags_json != some ([] : Tags)

/-- Sort key of the export query. -/
def rowRank (row : StoreRow) : Option Int :=
  match row.game_metadata with
  | some md => md.score_rank
  | none => none

/-- ORDER BY score_rank on the SQLite backend the scripts default to:
ascending, with NULL sorting before every integer. -/
def optIntLe (a b : Option Int) : Bool :=
  match a, b with
  | none, _ => true
  | some _, none => false
  | some x, some y => x ≤ y

/-- Row comparison induced by the sort key. -/
def byRank (a b : StoreRow) : Prop :=
  optIntLe (rowRank a) (rowRank b) = true

instance : DecidableRel byRank :=
  fun a b => by unfold byRank; infer_instance

instance : IsTotal StoreRow byRank := by
  constructor
  intro a b
  unfold byRank optIntLe
  rcases rowRank a with _ | x <;> rcases rowRank b with _ | y <;> simp
  omega

instance : IsTrans StoreRow byRank := by
  constructor
  intro a b c
  unfold byRank optIntLe
  rcases rowRank a with _ | x <;> rcases rowRank b with _ | y <;>
    rcases rowRank c with _ | z <;> simp
  omega

/-- One exported record, the camelCase dictionary to_game_record builds. -/
structure GameRecord where
  appId : Int
  name : String
  coverUrl : Option String
  shortDescription : Option String
  detailedDescription : Option String
  isFree : Option Bool
  requiredAge : Option Int
  website : Option String
  releaseDate : Option String
  developers : Option (List String)
  publishers : Option (List String)
  storeGenres : Option String
  categories : Option String
  supportedLanguages : Option String
  priceData : Option String
  pcRequirements : Option String
  price : Option String
  developer : Option String
  publisher : Option String
  tags : Tags
  genres : List String
  reviewPos : Option Int
  reviewNeg : Option Int
  deriving Repr, DecidableEq

/-- to_game_record of the export script: storefront fields win when the
relation exists, metadata fields fill the legacy slots, truthiness guards
follow the source (a None or empty price stays None, a stored "0" becomes
"Free", a falsy tags value becomes the empty dict, a truthy genre string
becomes a one-element list). -/
def to_game_record (row : StoreRow) : GameRecord :=
  let metadata := row.game_metadata
  let storefront := row.storefront_data
  let price : Option String :=
    match metadata with
    | some md =>
      match md.price with
      | some p => if p ≠ "" then (if p = "0" then some "Free" else some p) else none
      | none => none
    | none => none
  let tags : Tags :=
    match metadata with
    | some md =>
      match md.tags_json with
      | some ts => if ts ≠ [] then ts else []
      | none => []
    | none => []
  let genres : List String :=
    match metadata with
    | some md =>
      match md.genre with
      | some s => if s ≠ "" then [s] else []
      | none => []
    | none => []
  { appId := row.game.app_id
    name := row.game.name
    coverUrl := storefront.bind (·.header_image)
    shortDescription := storefront.bind (·.short_description)
    detailedDescription := storefront.bind (·.detailed_description)
    isFree := storefront.bind (·.is_free)
    requiredAge := storefront.bind (·.required_age)
    website := storefront.bind (·.website)
    releaseDate := storefront.bind (·.release_date)
    developers :=
      match storefront with
      | some sf => sf.developers
      | none =>
        match metadata with
        | some md =>
          match md.developer with
          | some d => if d ≠ "" then some [d] else none
          | none => none
        | none => none
    publishers :=
      match storefront with
      | some sf => sf.publishers
      | none =>
        match metadata with
        | some md =>
          match md.publisher with
          | some d => if d ≠ "" then some [d] else none
          | none => none
        | none => none
    storeGenres := storefront.bind (·.genres)
    categories := storefront.bind (·.categories)
    supportedLanguages := storefront.bind (·.supported_languages)
    priceData := storefront.bind (·.price_overview)
    pcRequirements := storefront.bind (·.pc_requirements)
    price := price
    developer := metadata.bind (·.developer)
    publisher := metadata.bind (·.publisher)
    tags := tags
    genres := genres
    reviewPos := metadata.bind (·.positive_reviews)
    reviewNeg := metadata.bind (·.negative_reviews) }

/-- The rows the SQL query returns: filtered, sorted by rank, capped at
1000. -/
def masterSelectedRows (db : Db) : List StoreRow :=
  ((db.filter masterFilter).insertionSort byRank).take 1000

/-- The selected rows that survive the final truthy-tags check of the
export loop. -/
def masterKeptRows (db : Db) : List StoreRow :=
  (masterSelectedRows db).filter (fun row => !(to_game_record row).tags.isEmpty)

/-- get_master_json_data of the export script: convert every selected row
and keep the records with a truthy non-empty tags dict. -/
def get_master_json_data (db : Db) : List GameRecord :=
  let games := masterSelectedRows db
  let records := games.map to_game_record
  records.filter (fun r => !r.tags.isEmpty)

/-- The ordering the specification asserts for the export array:
ascending by rank with unranked records last.  (Stated from the
specification for comparison; the code realises the SQLite order, which
is nulls first.) -/
def nullsLastLe (a b : Option Int) : Prop :=
  match a, b with
  | some x, some y => x ≤ y
  | some _, none => True
  | none, some _ => False
  | none, none => True

instance : DecidableRel nullsLastLe := by
  intro a b
  unfold nullsLastLe
  rcases a with _ | x <;> rcases b with _ | y <;> infer_instance

/-! ## Theorems for claim C3 (retry policy of the collectors request path) -/

/-- C3, counterexample to the claim as stated: on a trace whose first two
attempts fail and whose third succeeds, make_request, the path every
collector calls, surfaces the failure of attempt two after a single fixed
one-second delay, even though a three-attempt policy would have succeeded;
get_with_retry would have performed the third attempt, but make_request
never calls it. -/
theorem make_request_counterexample :
    make_request c3Trace = (.error ⟨"timeout 2"⟩, [1]) ∧
    get_with_retry c3Trace = (.ok "payload", [1, 2]) :=
  ⟨rfl, rfl⟩

/-- C3, amended: make_request performs at most two attempts: a successful
first attempt is returned with no delay, and after a failed first attempt
it sleeps exactly one second and returns the outcome of the second attempt,
success or typed failure, to the caller; the three-attempt exponential
policy lives only in HTTPClient.get_with_retry, which returns the outcome
of the third attempt after waits of 1 and 2 seconds once the first two
attempts fail. -/
theorem make_request_retry_policy {α : Type} (attempt : Nat → Except PyError α) :
    (∀ j, attempt 0 = .ok j → make_request attempt = (.ok j, [])) ∧
    (∀ e, attempt 0 = .error e → make_request attempt = (attempt 1, [1])) ∧
    (∀ e0 e1, attempt 0 = .error e0 → attempt 1 = .error e1 →
      get_with_retry attempt = (attempt 2, [1, 2])) := by
  refine ⟨?_, ?_, ?_⟩
  · intro j h
    simp [make_request, h]
  · intro e h
    simp [make_request, h]
  · intro e0 e1 h0 h1
    cases h2 : attempt 2 with
    | ok j => simp [get_with_retry, h0, h1, h2]
    | error e => simp [get_with_retry, h0, h1, h2]

/-- C3 witness: make_request_retry_policy instantiated on the concrete
trace whose first attempt fails. -/
theorem make_request_retry_policy_witness :
    c3Trace 0 = .error ⟨"timeout 1"⟩ ∧
    make_request c3Trace = (c3Trace 1, [1]) :=
  ⟨rfl, (make_request_retry_policy c3Trace).2.1 ⟨"timeout 1"⟩ rfl⟩

/-! ## Theorems for claim C1 (batch isolation in the orchestrator) -/

/-- Helper: a successful process_batch returns exactly its input batch. -/
theorem process_batch_ok_value (cm : List Game → Except PyError Unit)
    (cs : Option (List Game → Except PyError Unit)) (b v : List Game)
    (h : process_batch cm cs b = .ok v) : v = b := by
  unfold process_batch at h
  by_cases hb : b.isEmpty
  · rw [if_pos hb] at h
    cases h
    exact (List.isEmpty_iff.mp hb).symm
  · rw [if_neg hb] at h
    cases hcm : cm b with
    | error e => rw [hcm] at h; cases h
    | ok u =>
      rw [hcm] at h
      cases cs with
      | none => cases h; rfl
      | some c =>
        cases hc : c b with
        | error e => simp [hc] at h
        | ok u2 => simp [hc] at h; exact h.symm

/-- Helper: asyncio.gather with the default return_exceptions=False either
returns every result, all of them successes, or propagates an exception
that one of the awaited tasks raised. -/
theorem gatherResults_spec {α : Type} (l : List (Except PyError α)) :
    (∃ vs, gatherResults l = .ok vs ∧ l = vs.map Except.ok) ∨
    (∃ e, gatherResults l = .error e ∧ Except.error e ∈ l) := by
  induction l with
  | nil => exact Or.inl ⟨[], rfl, rfl⟩
  | cons a rest ih =>
    cases a with
    | error e => exact Or.inr ⟨e, rfl, List.mem_cons_self _ _⟩
    | ok v =>
      cases ih with
      | inl h =>
        obtain ⟨vs, hg, hl⟩ := h
        exact Or.inl ⟨v :: vs, by simp [gatherResults, hg], by simp [hl]⟩
      | inr h =>
        obtain ⟨e, hg, hm⟩ := h
        exact Or.inr ⟨e, by simp [gatherResults, hg], List.mem_cons_of_mem _ hm⟩

/-- Helper: if the mapped batch outcomes are all successes then the values
are the batches themselves. -/
theorem batches_ok_inv (cm : List Game → Except PyError Unit)
    (cs : Option (List Game → Except PyError Unit)) :
    ∀ (bs vs : List (List Game)),
      bs.map (process_batch cm cs) = vs.map Except.ok →
      vs = bs ∧ ∀ b ∈ bs, process_batch cm cs b = .ok b := by
  intro bs
  induction bs with
  | nil =>
    intro vs h
    cases vs with
    | nil => exact ⟨rfl, by intro b hb; cases hb⟩
    | cons v vr => simp at h
  | cons b rest ih =>
    intro vs h
    cases vs with
    | nil => simp at h
    | cons v vr =>
      simp only [List.map_cons, List.cons.injEq] at h
      obtain ⟨h1, h2⟩ := h
      have hv : v = b := process_batch_ok_value cm cs b v h1
      obtain ⟨hvs, hall⟩ := ih vr h2
      subst hv hvs
      refine ⟨rfl, ?_⟩
      intro x hx
      rcases List.mem_cons.mp hx with hx | hx
      · subst hx; exact h1
      · exact hall x hx

/-- C1, counterexample to the claim as stated: with batch size 1 over two
games and a collector that raises only for the batch holding game 2, the
batch holding game 1 succeeds on its own, yet process_games_parallel
returns the raised exception itself: no per-batch aggregate is produced,
the successful batch result is not reflected anywhere, and the exception
propagates to the caller instead of appearing in a result slot. -/
theorem process_games_parallel_counterexample :
    process_games_parallel
      (fun b => if b.any (fun g => g.app_id == 2) then .error ⟨"API Error"⟩ else .ok ())
      none 1 [⟨1, "Game 1", true, 0⟩, ⟨2, "Game 2", true, 0⟩] = .error ⟨"API Error"⟩ ∧
    process_batch
      (fun b => if b.any (fun g => g.app_id == 2) then .error ⟨"API Error"⟩ else .ok ())
      none [⟨1, "Game 1", true, 0⟩] = .ok [⟨1, "Game 1", true, 0⟩] :=
  ⟨rfl, rfl⟩

/-- C1, amended: process_games_parallel either returns the full list of
per-batch results, in which case every batch succeeded, or returns the
exception raised inside one of the batches, exactly as asyncio.gather
without return_exceptions propagates it; a failing batch therefore aborts
the aggregate instead of occupying its own result slot. -/
theorem process_games_parallel_gather_semantics
    (cm : List Game → Except PyError Unit)
    (cs : Option (List Game → Except PyError Unit))
    (bs : Nat) (games : List Game) :
    (process_games_parallel cm cs bs games = .ok (chunkBatches bs games) ∧
      ∀ b ∈ chunkBatches bs games, process_batch cm cs b = .ok b) ∨
    (∃ e, process_games_parallel cm cs bs games = .error e ∧
      ∃ b ∈ chunkBatches bs games, process_batch cm cs b = .error e) := by
  by_cases hg : games.isEmpty
  · left
    have hnil : games = [] := List.isEmpty_iff.mp hg
    subst hnil
    have hchunk : chunkBatches bs ([] : List Game) = [] := by
      simp [chunkBatches, chunkAux]
    rw [hchunk]
    exact ⟨by simp [process_games_parallel], by intro b hb; cases hb⟩
  · have hres : process_games_parallel cm cs bs games =
        gatherResults ((chunkBatches bs games).map (process_batch cm cs)) := by
      simp [process_games_parallel, hg]
    rcases gatherResults_spec ((chunkBatches bs games).map (process_batch cm cs)) with
      ⟨vs, hok, hmap⟩ | ⟨e, herr, hmem⟩
    · left
      obtain ⟨hvs, hall⟩ := batches_ok_inv cm cs (chunkBatches bs games) vs hmap
      subst hvs
      exact ⟨by rw [hres, hok], hall⟩
    · right
      refine ⟨e, by rw [hres, herr], ?_⟩
      obtain ⟨b, hb, hpb⟩ := List.mem_map.mp hmem
      exact ⟨b, hb, hpb⟩

/-! ## Theorems for claim C8 (price conversion) -/

/-- C8, counterexample to the claim as stated: the integer zero is a value
that parses to zero minor-currency units, yet _convert_price returns None
for it, not "Free", because the integer zero is falsy and is swallowed by
the leading truthiness guard. -/
theorem convert_price_zero_int_counterexample :
    parsedCents (PriceInput.int 0) = some 0 ∧
    convert_price (PriceInput.int 0) = none ∧
    convert_price (PriceInput.int 0) ≠ some "Free" :=
  ⟨rfl, rfl, by decide⟩

/-- C8, amended: the string "0" maps to "Free", the string "1999" maps to
"19.99", the empty string and None map to None; in general every falsy
input (None, the empty string, the integer zero) maps to None, every
truthy input parsing to zero maps to "Free", and every other truthy
parseable input maps to the exact two-decimal rendering of its value. -/
theorem convert_price_spec :
    convert_price (PriceInput.str "0") = some "Free" ∧
    convert_price (PriceInput.str "1999") = some "19.99" ∧
    convert_price (PriceInput.str "") = none ∧
    convert_price PriceInput.absent = none ∧
    (∀ p : PriceInput, p.truthy = false → convert_price p = none) ∧
    (∀ p : PriceInput, p.truthy = true → parsedCents p = some 0 →
      convert_price p = some "Free") ∧
    (∀ p : PriceInput, ∀ c : Int, p.truthy = true → parsedCents p = some c →
      c ≠ 0 → convert_price p = some (formatCents c)) ∧
    (∀ c : Int, ∃ w : String, ∃ f : Nat, f < 100 ∧
      formatCents c = w ++ "." ++ ((if f < 10 then "0" else "") ++ toString f)) := by
  refine ⟨by decide, by decide, by decide, by decide, ?_, ?_, ?_, ?_⟩
  · intro p hp
    simp [convert_price, hp]
  · intro p hp hc
    simp [convert_price, hp, hc]
  · intro p c hp hc hne
    simp [convert_price, hp, hc, hne]
  · intro c
    refine ⟨(if c < 0 then "-" else "") ++ toString (c.natAbs / 100),
      c.natAbs % 100, Nat.mod_lt _ (by norm_num), ?_⟩
    simp [formatCents, String.append_assoc]

/-- C8 witness: the general clauses of convert_price_spec instantiated at
the concrete truthy input "1999", which parses to the nonzero value 1999. -/
theorem convert_price_spec_witness :
    (PriceInput.str "1999").truthy = true ∧
    parsedCents (PriceInput.str "1999") = some 1999 ∧
    convert_price (PriceInput.str "1999") = some (formatCents 1999) :=
  ⟨by decide, by decide,
    (convert_price_spec.2.2.2.2.2.2.1) (PriceInput.str "1999") 1999
      (by decide) (by decide) (by decide)⟩

/-! ## Reconciler lemmas: table lookups and first-match replacement -/

/-- Helper: a found row is a member carrying the searched key. -/
theorem findGame_mem {s : GameStore} {aid : Int} {e : Game}
    (h : findGame s aid = some e) : e ∈ s ∧ e.app_id = aid := by
  refine ⟨List.mem_of_find?_eq_some h, ?_⟩
  have hp := List.find?_some h
  simpa using hp

/-- Helper: lookup fails exactly off the identifier column. -/
theorem findGame_eq_none_iff {s : GameStore} {aid : Int} :
    findGame s aid = none ↔ aid ∉ storeIds s := by
  simp only [findGame, List.find?_eq_none, storeIds, List.mem_map]
  constructor
  · rintro h ⟨g, hg, hgid⟩
    exact h g hg (by simpa using hgid)
  · intro h g hg hp
    exact h ⟨g, hg, by simpa using hp⟩

/-- Helper: lookup succeeds exactly on the identifier column. -/
theorem findGame_isSome_iff {s : GameStore} {aid : Int} :
    (∃ e, findGame s aid = some e) ↔ aid ∈ storeIds s := by
  constructor
  · rintro ⟨e, he⟩
    by_contra hmem
    rw [findGame_eq_none_iff.mpr hmem] at he
    cases he
  · intro hmem
    cases he : findGame s aid with
    | some e => exact ⟨e, rfl⟩
    | none => exact absurd hmem (findGame_eq_none_iff.mp he)

/-- Helper: identifier-preserving replacement keeps the identifier
column. -/
theorem storeIds_updateFirstGame (f : Game → Game)
    (hf : ∀ g, (f g).app_id = g.app_id) (aid : Int) (s : GameStore) :
    storeIds (updateFirstGame s aid f) = storeIds s := by
  induction s with
  | nil => rfl
  | cons g rest ih =>
    by_cases h : g.app_id == aid
    · simp [updateFirstGame, h, storeIds, hf]
    · simp only [updateFirstGame, if_neg h]
      simp only [storeIds, List.map_cons] at ih ⊢
      rw [ih]

/-- Helper: lookup unfolded over a table head. -/
theorem findGame_cons (g : Game) (rest : GameStore) (aid : Int) :
    findGame (g :: rest) aid =
      if g.app_id == aid then some g else findGame rest aid := by
  unfold findGame
  rw [List.find?_cons]
  cases hb : (g.app_id == aid) with
  | true => simp
  | false => simp

/-- Helper: first-match replacement unfolded over a table head. -/
theorem updateFirstGame_cons (g : Game) (rest : GameStore) (aid : Int)
    (f : Game → Game) :
    updateFirstGame (g :: rest) aid f =
      if g.app_id == aid then f g :: rest else g :: updateFirstGame rest aid f :=
  rfl

/-- Helper: replacement rewrites exactly the row the lookup returns. -/
theorem findGame_updateFirstGame_self (f : Game → Game) {s : GameStore}
    {aid : Int} {e : Game} (hf : ∀ g, (f g).app_id = g.app_id)
    (h : findGame s aid = some e) :
    findGame (updateFirstGame s aid f) aid = some (f e) := by
  induction s with
  | nil => cases h
  | cons g rest ih =>
    rw [findGame_cons] at h
    rw [updateFirstGame_cons]
    by_cases hg : g.app_id = aid
    · rw [if_pos (by simpa using hg)] at h
      cases h
      rw [if_pos (by simpa using hg), findGame_cons,
        if_pos (by simp [hf, hg])]
    · rw [if_neg (by simpa using hg)] at h
      rw [if_neg (by simpa using hg), findGame_cons,
        if_neg (by simpa using hg)]
      exact ih h

/-- Helper: replacement at one key leaves the lookup of every other key
untouched. -/
theorem findGame_updateFirstGame_ne (f : Game → Game) {aid aid' : Int}
    (hf : ∀ g, (f g).app_id = g.app_id) (hne : aid' ≠ aid) (s : GameStore) :
    findGame (updateFirstGame s aid f) aid' = findGame s aid' := by
  induction s with
  | nil => rfl
  | cons g rest ih =>
    rw [updateFirstGame_cons]
    by_cases hg : g.app_id = aid
    · have hgne : ¬ g.app_id = aid' := by omega
      rw [if_pos (by simpa using hg), findGame_cons, findGame_cons,
        if_neg (by simp [hf, hgne]), if_neg (by simpa using hgne)]
    · rw [if_neg (by simpa using hg), findGame_cons, findGame_cons]
      by_cases hg' : g.app_id = aid'
      · rw [if_pos (by simpa using hg'), if_pos (by simpa using hg')]
      · rw [if_neg (by simpa using hg'), if_neg (by simpa using hg')]
        exact ih

/-- Helper: membership after first-match replacement. -/
theorem mem_updateFirstGame {s : GameStore} {aid : Int} {f : Game → Game}
    {x : Game} (hx : x ∈ updateFirstGame s aid f) :
    x ∈ s ∨ ∃ e ∈ s, e.app_id = aid ∧ x = f e := by
  induction s with
  | nil => cases hx
  | cons g rest ih =>
    by_cases hg : g.app_id == aid
    · simp only [updateFirstGame, if_pos hg] at hx
      rcases List.mem_cons.mp hx with hx | hx
      · exact Or.inr ⟨g, List.mem_cons_self _ _, by simpa using hg, hx⟩
      · exact Or.inl (List.mem_cons_of_mem _ hx)
    · simp only [updateFirstGame, if_neg hg] at hx
      rcases List.mem_cons.mp hx with hx | hx
      · exact Or.inl (by simp [hx])
      · rcases ih hx with h | ⟨e, he, heid, hxe⟩
        · exact Or.inl (List.mem_cons_of_mem _ h)
        · exact Or.inr ⟨e, List.mem_cons_of_mem _ he, heid, hxe⟩

/-- Helper: the replaced row is a member of the new table. -/
theorem updateFirstGame_mem_self {s : GameStore} {aid : Int} {e : Game}
    (f : Game → Game) (h : findGame s aid = some e) :
    f e ∈ updateFirstGame s aid f := by
  induction s with
  | nil => cases h
  | cons g rest ih =>
    rw [findGame_cons] at h
    rw [updateFirstGame_cons]
    by_cases hb : (g.app_id == aid) = true
    · rw [if_pos hb] at h
      cases h
      rw [if_pos hb]
      exact List.mem_cons_self _ _
    · rw [if_neg hb] at h
      rw [if_neg hb]
      exact List.mem_cons_of_mem _ (ih h)

/-- Helper: replacing the found row by itself leaves the table alone. -/
theorem updateFirstGame_eq_self {s : GameStore} {aid : Int} {e : Game}
    {f : Game → Game} (h : findGame s aid = some e) (hfe : f e = e) :
    updateFirstGame s aid f = s := by
  induction s with
  | nil => rfl
  | cons g rest ih =>
    rw [findGame_cons] at h
    rw [updateFirstGame_cons]
    by_cases hb : (g.app_id == aid) = true
    · rw [if_pos hb] at h
      cases h
      rw [if_pos hb, hfe]
    · rw [if_neg hb] at h
      rw [if_neg hb, ih h]

/-- Helper: replacement under a predicate that rejects every row at the
replaced key commutes away. -/
theorem filter_updateFirstGame (q : Game → Bool) (f : Game → Game)
    (hf : ∀ g, (f g).app_id = g.app_id) {aid : Int}
    (hq : ∀ x : Game, x.app_id = aid → q x = false) (s : GameStore) :
    (updateFirstGame s aid f).filter q = s.filter q := by
  induction s with
  | nil => rfl
  | cons g rest ih =>
    rw [updateFirstGame_cons]
    by_cases hb : (g.app_id == aid) = true
    · have hgid : g.app_id = aid := by simpa using hb
      have h1 : q g = false := hq g hgid
      have h2 : q (f g) = false := hq (f g) (by rw [hf]; exact hgid)
      rw [if_pos hb, List.filter_cons, List.filter_cons, h1, h2]
      simp
    · rw [if_neg hb, List.filter_cons, List.filter_cons, ih]

/-! ## Reconciler lemmas: the deactivation sweep -/

/-- Helper: the sweep unfolded over a table head. -/
theorem sweepCore_cons (flip : Game → Game) (cur : List Int) (g : Game)
    (rest : GameStore) :
    sweepCore flip cur (g :: rest) =
      if g.is_active && !cur.contains g.app_id then
        (flip g :: (sweepCore flip cur rest).1, (sweepCore flip cur rest).2 + 1)
      else
        (g :: (sweepCore flip cur rest).1, (sweepCore flip cur rest).2) :=
  rfl

/-- Helper: the sweep is positionally a map. -/
theorem sweepCore_fst (flip : Game → Game) (cur : List Int) (s : GameStore) :
    (sweepCore flip cur s).1 =
      s.map (fun g =>
        if g.is_active && !cur.contains g.app_id then flip g else g) := by
  induction s with
  | nil => rfl
  | cons g rest ih =>
    rw [sweepCore_cons, List.map_cons]
    by_cases h : (g.is_active && !cur.contains g.app_id) = true
    · rw [if_pos h, if_pos h]
      exact congrArg (flip g :: ·) ih
    · rw [if_neg h, if_neg h]
      exact congrArg (g :: ·) ih

/-- Helper: the sweep counts exactly the active rows outside the fresh
identifier set. -/
theorem sweepCore_snd (flip : Game → Game) (cur : List Int) (s : GameStore) :
    (sweepCore flip cur s).2 =
      (s.filter (fun g => g.is_active && !cur.contains g.app_id)).length := by
  induction s with
  | nil => rfl
  | cons g rest ih =>
    rw [sweepCore_cons, List.filter_cons]
    by_cases h : (g.is_active && !cur.contains g.app_id) = true
    · rw [if_pos h, if_pos h]
      simp [ih]
    · rw [if_neg h, if_neg h]
      simpa using ih

/-- Helper: after a sweep that really deactivates, every still-active row
carries an identifier of the fresh set. -/
theorem sweepCore_post (flip : Game → Game)
    (hflip : ∀ g, (flip g).is_active = false) (cur : List Int) (s : GameStore) :
    ∀ x ∈ (sweepCore flip cur s).1, x.is_active = true → x.app_id ∈ cur := by
  intro x hx hact
  rw [sweepCore_fst] at hx
  obtain ⟨g, hg, hgx⟩ := List.mem_map.mp hx
  by_cases h : g.is_active && !cur.contains g.app_id
  · rw [if_pos h] at hgx
    rw [← hgx] at hact
    rw [hflip] at hact
    cases hact
  · rw [if_neg h] at hgx
    subst hgx
    simp only [Bool.and_eq_true, Bool.not_eq_true', not_and] at h
    have := h hact
    simpa using this

/-- Helper: a sweep over a table whose active rows all carry fresh
identifiers does nothing. -/
theorem sweepCore_noop (flip : Game → Game) (cur : List Int) (s : GameStore)
    (h : ∀ g ∈ s, g.is_active = true → g.app_id ∈ cur) :
    sweepCore flip cur s = (s, 0) := by
  induction s with
  | nil => rfl
  | cons g rest ih =>
    have hg : ¬ ((g.is_active && !cur.contains g.app_id) = true) := by
      cases hact : g.is_active with
      | false => simp
      | true =>
        have := h g (List.mem_cons_self _ _) hact
        simp [this]
    have ihr := ih (fun x hx => h x (List.mem_cons_of_mem _ hx))
    rw [sweepCore_cons, ihr, if_neg hg]

/-- Helper: a sweep never touches an active row of the fresh set. -/
theorem ActiveIn_sweepCore (flip : Game → Game) {cur : List Int}
    {s : GameStore} {aid : Int} (hcur : aid ∈ cur) (h : ActiveIn s aid) :
    ActiveIn (sweepCore flip cur s).1 aid := by
  obtain ⟨g, hg, hgid, hact⟩ := h
  rw [sweepCore_fst]
  refine ⟨g, ?_, hgid, hact⟩
  have hcond : (g.is_active && !cur.contains g.app_id) = false := by
    rw [hact, hgid]
    simp [hcur]
  have hite : (if g.is_active && !cur.contains g.app_id then flip g else g) = g :=
    if_neg (by rw [hcond]; simp)
  exact List.mem_map.mpr ⟨g, hg, hite⟩

/-- Helper: the sweep keeps the identifier column when the flip does. -/
theorem storeIds_sweepCore (flip : Game → Game)
    (hflip : ∀ g, (flip g).app_id = g.app_id) (cur : List Int) (s : GameStore) :
    storeIds (sweepCore flip cur s).1 = storeIds s := by
  rw [sweepCore_fst]
  simp only [storeIds, List.map_map]
  apply List.map_congr_left
  intro g _
  by_cases h : (g.is_active && !cur.contains g.app_id) = true
  · simp only [Function.comp]
    rw [if_pos h, hflip]
  · simp only [Function.comp]
    rw [if_neg h]

/-- Helper: lookup after the sweep sees the swept image of the original
row. -/
theorem findGame_sweepCore (flip : Game → Game)
    (hflip : ∀ g, (flip g).app_id = g.app_id) (cur : List Int) (s : GameStore)
    (aid : Int) :
    findGame (sweepCore flip cur s).1 aid =
      (findGame s aid).map (fun g =>
        if g.is_active && !cur.contains g.app_id then flip g else g) := by
  rw [sweepCore_fst]
  unfold findGame
  rw [List.find?_map]
  have hpred : ((fun g : Game => g.app_id == aid) ∘
      (fun g => if g.is_active && !cur.contains g.app_id then flip g else g)) =
      (fun g : Game => g.app_id == aid) := by
    funext g
    simp only [Function.comp]
    by_cases h : (g.is_active && !cur.contains g.app_id) = true
    · rw [if_pos h, hflip]
    · rw [if_neg h]
  rw [hpred]

/-! ## Reconciler lemmas: the upsert loop -/

/-- Helper: unfolding the upsert loop when the head row exists; the table
component. -/
theorem upsertCore_found_fst (u : Game → Game → Game) (c : Game → Game → Nat)
    (i : Game → Game) {g : Game} {rest : List Game} {store : GameStore}
    {e : Game} (h : findGame store g.app_id = some e) :
    (upsertCore u c i (g :: rest) store).1 =
      (upsertCore u c i rest (updateFirstGame store g.app_id (u g))).1 := by
  simp only [upsertCore, h]

/-- Helper: unfolding the upsert loop when the head row exists; the
counters. -/
theorem upsertCore_found_snd (u : Game → Game → Game) (c : Game → Game → Nat)
    (i : Game → Game) {g : Game} {rest : List Game} {store : GameStore}
    {e : Game} (h : findGame store g.app_id = some e) :
    (upsertCore u c i (g :: rest) store).2 =
      ((upsertCore u c i rest (updateFirstGame store g.app_id (u g))).2.1,
       (upsertCore u c i rest (updateFirstGame store g.app_id (u g))).2.2 + c g e) := by
  simp only [upsertCore, h]

/-- Helper: unfolding the upsert loop when the head row is missing; the
table component. -/
theorem upsertCore_notfound_fst (u : Game → Game → Game) (c : Game → Game → Nat)
    (i : Game → Game) {g : Game} {rest : List Game} {store : GameStore}
    (h : findGame store g.app_id = none) :
    (upsertCore u c i (g :: rest) store).1 =
      (upsertCore u c i rest (store ++ [i g])).1 := by
  simp only [upsertCore, h]

/-- Helper: unfolding the upsert loop when the head row is missing; the
counters. -/
theorem upsertCore_notfound_snd (u : Game → Game → Game) (c : Game → Game → Nat)
    (i : Game → Game) {g : Game} {rest : List Game} {store : GameStore}
    (h : findGame store g.app_id = none) :
    (upsertCore u c i (g :: rest) store).2 =
      ((upsertCore u c i rest (store ++ [i g])).2.1 + 1,
       (upsertCore u c i rest (store ++ [i g])).2.2) := by
  simp only [upsertCore, h]

/-- Helper: the identifiers after the upsert loop are the old identifiers
extended by the fresh ones. -/
theorem storeIds_upsertCore (u : Game → Game → Game) (c : Game → Game → Nat)
    (i : Game → Game) (hu_id : ∀ g e, (u g e).app_id = e.app_id)
    (hi_id : ∀ g, (i g).app_id = g.app_id) :
    ∀ (gs : List Game) (store : GameStore) (aid : Int),
      aid ∈ storeIds (upsertCore u c i gs store).1 ↔
        aid ∈ storeIds store ∨ aid ∈ gs.map (·.app_id) := by
  intro gs
  induction gs with
  | nil =>
    intro store aid
    simp [upsertCore]
  | cons g rest ih =>
    intro store aid
    cases hf : findGame store g.app_id with
    | some e =>
      rw [upsertCore_found_fst u c i hf, ih,
        storeIds_updateFirstGame (u g) (hu_id g)]
      have hgid : g.app_id ∈ storeIds store := by
        obtain ⟨hmem, hid⟩ := findGame_mem hf
        rw [← hid]
        exact List.mem_map_of_mem _ hmem
      simp only [List.map_cons, List.mem_cons]
      constructor
      · rintro (h | h)
        · exact Or.inl h
        · exact Or.inr (Or.inr h)
      · rintro (h | h | h)
        · exact Or.inl h
        · rw [h]
          exact Or.inl hgid
        · exact Or.inr h
    | none =>
      rw [upsertCore_notfound_fst u c i hf, ih]
      simp only [storeIds, List.map_append, List.map_cons, List.map_nil,
        List.mem_append, List.mem_cons, List.mem_singleton, hi_id]
      tauto

/-- Helper: the upsert loop leaves the lookup of an identifier outside the
fresh set untouched. -/
theorem findGame_upsertCore_untouched (u : Game → Game → Game)
    (c : Game → Game → Nat) (i : Game → Game)
    (hu_id : ∀ g e, (u g e).app_id = e.app_id)
    (hi_id : ∀ g, (i g).app_id = g.app_id) :
    ∀ (gs : List Game) (store : GameStore) (aid : Int),
      aid ∉ gs.map (·.app_id) →
      findGame (upsertCore u c i gs store).1 aid = findGame store aid := by
  intro gs
  induction gs with
  | nil =>
    intro store aid _
    rfl
  | cons g rest ih =>
    intro store aid hout
    simp only [List.map_cons, List.mem_cons, not_or] at hout
    obtain ⟨hne, hout'⟩ := hout
    cases hf : findGame store g.app_id with
    | some e =>
      rw [upsertCore_found_fst u c i hf,
        ih _ _ (by simpa using hout'),
        findGame_updateFirstGame_ne (u g) (hu_id g) hne]
    | none =>
      rw [upsertCore_notfound_fst u c i hf,
        ih _ _ (by simpa using hout')]
      unfold findGame
      rw [List.find?_append]
      cases hfa : List.find? (fun g => g.app_id == aid) store with
      | some x => simp
      | none =>
        simp only [Option.or]
        rw [List.find?_cons, List.find?_nil]
        have : ((i g).app_id == aid) = false := by
          rw [hi_id]
          simpa using Ne.symm hne
        simp [this]

/-- Helper: a row whose identifier differs from the replaced key stays a
member under first-match replacement. -/
theorem mem_updateFirstGame_of_ne {s : GameStore} {aid : Int} {f : Game → Game}
    {x : Game} (hx : x ∈ s) (hne : x.app_id ≠ aid) :
    x ∈ updateFirstGame s aid f := by
  induction s with
  | nil => cases hx
  | cons g rest ih =>
    rw [updateFirstGame_cons]
    by_cases hb : (g.app_id == aid) = true
    · rw [if_pos hb]
      rcases List.mem_cons.mp hx with hx | hx
      · exact absurd (by rw [hx]; simpa using hb) hne
      · exact List.mem_cons_of_mem _ hx
    · rw [if_neg hb]
      rcases List.mem_cons.mp hx with hx | hx
      · rw [hx]
        exact List.mem_cons_self _ _
      · exact List.mem_cons_of_mem _ (ih hx)

/-- Helper: the upsert loop preserves an active row. -/
theorem ActiveIn_upsertCore (u : Game → Game → Game) (c : Game → Game → Nat)
    (i : Game → Game) (hu_id : ∀ g e, (u g e).app_id = e.app_id)
    (hu_act : ∀ g e, (u g e).is_active = true) :
    ∀ (gs : List Game) (store : GameStore) (aid : Int),
      ActiveIn store aid → ActiveIn (upsertCore u c i gs store).1 aid := by
  intro gs
  induction gs with
  | nil =>
    intro store aid h
    exact h
  | cons g rest ih =>
    intro store aid h
    cases hf : findGame store g.app_id with
    | some e =>
      rw [upsertCore_found_fst u c i hf]
      apply ih
      obtain ⟨x, hx, hxid, hxact⟩ := h
      by_cases hxg : x.app_id = g.app_id
      · refine ⟨u g e, updateFirstGame_mem_self (u g) hf, ?_, hu_act g e⟩
        obtain ⟨_, hid⟩ := findGame_mem hf
        rw [hu_id, hid, ← hxg, hxid]
      · exact ⟨x, mem_updateFirstGame_of_ne hx hxg, hxid, hxact⟩
    | none =>
      rw [upsertCore_notfound_fst u c i hf]
      apply ih
      obtain ⟨x, hx, hxid, hxact⟩ := h
      exact ⟨x, List.mem_append_left _ hx, hxid, hxact⟩

/-- Helper: appending a row with the searched key behind a table that
lacks it makes the lookup find that row. -/
theorem findGame_append_single {store : GameStore} {x : Game} {aid : Int}
    (h : findGame store aid = none) (hx : x.app_id = aid) :
    findGame (store ++ [x]) aid = some x := by
  unfold findGame at *
  rw [List.find?_append, h]
  simp [hx]

/-- Helper: every fresh identifier becomes active after the upsert loop
(for an insert function that keeps the fresh row active). -/
theorem upsertCore_sets_active (u : Game → Game → Game) (c : Game → Game → Nat)
    (i : Game → Game) (hu_id : ∀ g e, (u g e).app_id = e.app_id)
    (hu_act : ∀ g e, (u g e).is_active = true)
    (hi_id : ∀ g, (i g).app_id = g.app_id) :
    ∀ (gs : List Game) (store : GameStore),
      ∀ g ∈ gs, (i g).is_active = true →
        ActiveIn (upsertCore u c i gs store).1 g.app_id := by
  intro gs
  induction gs with
  | nil =>
    intro store g hg
    cases hg
  | cons g0 rest ih =>
    intro store g hg hins
    rcases List.mem_cons.mp hg with rfl | hgrest
    · cases hf : findGame store g.app_id with
      | some e =>
        rw [upsertCore_found_fst u c i hf]
        apply ActiveIn_upsertCore u c i hu_id hu_act
        refine ⟨u g e, updateFirstGame_mem_self (u g) hf, ?_, hu_act g e⟩
        obtain ⟨_, hid⟩ := findGame_mem hf
        rw [hu_id, hid]
      | none =>
        rw [upsertCore_notfound_fst u c i hf]
        apply ActiveIn_upsertCore u c i hu_id hu_act
        exact ⟨i g, List.mem_append_right _ (List.mem_cons_self _ _), hi_id g,
          hins⟩
    · cases hf : findGame store g0.app_id with
      | some e =>
        rw [upsertCore_found_fst u c i hf]
        exact ih _ g hgrest hins
      | none =>
        rw [upsertCore_notfound_fst u c i hf]
        exact ih _ g hgrest hins

/-- Helper: after the upsert loop an active row either carries a fresh
identifier or was already sitting in the table. -/
theorem upsertCore_active_post (u : Game → Game → Game) (c : Game → Game → Nat)
    (i : Game → Game) (hu_id : ∀ g e, (u g e).app_id = e.app_id)
    (hi_id : ∀ g, (i g).app_id = g.app_id) :
    ∀ (gs : List Game) (store : GameStore),
      ∀ x ∈ (upsertCore u c i gs store).1,
        x.app_id ∈ gs.map (·.app_id) ∨ x ∈ store := by
  intro gs
  induction gs with
  | nil =>
    intro store x hx
    exact Or.inr hx
  | cons g0 rest ih =>
    intro store x hx
    cases hf : findGame store g0.app_id with
    | some e =>
      rw [upsertCore_found_fst u c i hf] at hx
      rcases ih _ x hx with h | h
      · exact Or.inl (List.mem_cons_of_mem _ h)
      · rcases mem_updateFirstGame h with h' | ⟨e', _, he'id, hxe'⟩
        · exact Or.inr h'
        · refine Or.inl ?_
          rw [hxe', hu_id, he'id]
          simp
    | none =>
      rw [upsertCore_notfound_fst u c i hf] at hx
      rcases ih _ x hx with h | h
      · exact Or.inl (List.mem_cons_of_mem _ h)
      · rcases List.mem_append.mp h with h' | h'
        · exact Or.inr h'
        · refine Or.inl ?_
          rw [List.mem_singleton.mp h', hi_id]
          simp

/-- Helper: with pairwise distinct fresh identifiers, the lookup of each
fresh identifier after the upsert loop returns a row renamed to the fresh
name and active. -/
theorem upsertCore_lookup_post (u : Game → Game → Game) (c : Game → Game → Nat)
    (i : Game → Game) (hu_id : ∀ g e, (u g e).app_id = e.app_id)
    (hu_act : ∀ g e, (u g e).is_active = true)
    (hu_name : ∀ g e, (u g e).name = g.name)
    (hi_id : ∀ g, (i g).app_id = g.app_id)
    (hi_name : ∀ g, (i g).name = g.name) :
    ∀ (gs : List Game) (store : GameStore),
      (gs.map (·.app_id)).Nodup →
      (∀ g ∈ gs, (i g).is_active = true) →
      ∀ g ∈ gs, ∃ e, findGame (upsertCore u c i gs store).1 g.app_id = some e ∧
        e.name = g.name ∧ e.is_active = true := by
  intro gs
  induction gs with
  | nil =>
    intro store _ _ g hg
    cases hg
  | cons g0 rest ih =>
    intro store hnd hins g hg
    rw [List.map_cons, List.nodup_cons] at hnd
    obtain ⟨hnd0, hndr⟩ := hnd
    rcases List.mem_cons.mp hg with rfl | hgrest
    · cases hf : findGame store g.app_id with
      | some e =>
        rw [upsertCore_found_fst u c i hf]
        refine ⟨u g e, ?_, hu_name g e, hu_act g e⟩
        rw [findGame_upsertCore_untouched u c i hu_id hi_id rest _ _ hnd0]
        exact findGame_updateFirstGame_self (u g) (hu_id g) hf
      | none =>
        rw [upsertCore_notfound_fst u c i hf]
        refine ⟨i g, ?_, hi_name g, hins g (List.mem_cons_self _ _)⟩
        rw [findGame_upsertCore_untouched u c i hu_id hi_id rest _ _ hnd0]
        exact findGame_append_single hf (hi_id g)
    · cases hf : findGame store g0.app_id with
      | some e =>
        rw [upsertCore_found_fst u c i hf]
        exact ih _ hndr (fun x hx => hins x (List.mem_cons_of_mem _ hx)) g hgrest
      | none =>
        rw [upsertCore_notfound_fst u c i hf]
        exact ih _ hndr (fun x hx => hins x (List.mem_cons_of_mem _ hx)) g hgrest

/-- Helper: the upsert loop does not touch the rows a predicate blind to
fresh identifiers selects. -/
theorem filter_upsertCore (u : Game → Game → Game) (c : Game → Game → Nat)
    (i : Game → Game) (hu_id : ∀ g e, (u g e).app_id = e.app_id)
    (hi_id : ∀ g, (i g).app_id = g.app_id) (q : Game → Bool) :
    ∀ (gs : List Game) (store : GameStore),
      (∀ g ∈ gs, ∀ x : Game, x.app_id = g.app_id → q x = false) →
      (upsertCore u c i gs store).1.filter q = store.filter q := by
  intro gs
  induction gs with
  | nil =>
    intro store _
    rfl
  | cons g0 rest ih =>
    intro store hq
    have hq0 := hq g0 (List.mem_cons_self _ _)
    have hqr : ∀ g ∈ rest, ∀ x : Game, x.app_id = g.app_id → q x = false :=
      fun g hg => hq g (List.mem_cons_of_mem _ hg)
    cases hf : findGame store g0.app_id with
    | some e =>
      rw [upsertCore_found_fst u c i hf, ih _ hqr,
        filter_updateFirstGame q (u g0) (hu_id g0) hq0]
    | none =>
      rw [upsertCore_notfound_fst u c i hf, ih _ hqr, List.filter_append]
      have : q (i g0) = false := hq0 (i g0) (hi_id g0)
      simp [List.filter_cons, this]

/-- Helper: when every fresh identifier is already present, the upsert
loop of the listing reconciler reports zero creations and one update per
fresh row. -/
theorem upsertGames_counts_present (now : Nat) :
    ∀ (gs : List Game) (store : GameStore),
      (∀ g ∈ gs, g.app_id ∈ storeIds store) →
      (upsertGames now gs store).2 = (0, gs.length) := by
  intro gs
  induction gs with
  | nil =>
    intro store _
    rfl
  | cons g0 rest ih =>
    intro store h
    have hg : g0.app_id ∈ storeIds store := h g0 (List.mem_cons_self _ _)
    obtain ⟨e, he⟩ := findGame_isSome_iff.mpr hg
    simp only [upsertGames] at *
    rw [upsertCore_found_snd _ _ _ he]
    have hids : storeIds (updateFirstGame store g0.app_id
        (fun e => { e with name := g0.name, is_active := true, updated_at := now })) =
        storeIds store :=
      storeIds_updateFirstGame
        (fun e => { e with name := g0.name, is_active := true, updated_at := now })
        (fun _ => rfl) _ _
    have hr := ih (updateFirstGame store g0.app_id
        (fun e => { e with name := g0.name, is_active := true, updated_at := now }))
      (fun g hgr => by rw [hids]; exact h g (List.mem_cons_of_mem _ hgr))
    rw [hr]
    simp

/-- Helper: when every fresh row is already stored under its own name and
active, the change-sensitive upsert loop of SteamCollector changes
nothing and counts nothing. -/
theorem upsertGamesSC_noop :
    ∀ (gs : List Game) (store : GameStore),
      (∀ g ∈ gs, ∃ e, findGame store g.app_id = some e ∧
        e.name = g.name ∧ e.is_active = true) →
      upsertGamesSC gs store = (store, 0, 0) := by
  intro gs
  induction gs with
  | nil =>
    intro store _
    rfl
  | cons g0 rest ih =>
    intro store h
    obtain ⟨e, he, hname, hact⟩ := h g0 (List.mem_cons_self _ _)
    have hfix : ({ e with name := g0.name, is_active := true } : Game) = e := by
      rw [← hname, ← hact]
    simp only [upsertGamesSC] at *
    have hstore : updateFirstGame store g0.app_id
        (fun e' => { e' with name := g0.name, is_active := true }) = store :=
      updateFirstGame_eq_self he hfix
    have hcount : ((if e.name ≠ g0.name then 1 else 0) +
        (if e.is_active = false then 1 else 0)) = 0 := by
      rw [hname, hact]
      simp
    have hrest := ih store (fun g hg => h g (List.mem_cons_of_mem _ hg))
    refine Prod.ext ?_ (Prod.ext ?_ ?_)
    · rw [upsertCore_found_fst _ _ _ he, hstore, hrest]
    · rw [upsertCore_found_snd _ _ _ he, hstore, hrest]
    · rw [upsertCore_found_snd _ _ _ he, hstore, hrest]
      simpa using hcount

/-- Helper: with pairwise distinct fresh identifiers the listing upsert
loop counts exactly the missing identifiers as created and the present
ones as updated. -/
theorem upsertGames_counts_nodup (now : Nat) :
    ∀ (gs : List Game) (store : GameStore),
      (gs.map (·.app_id)).Nodup →
      (upsertGames now gs store).2 =
        ((gs.filter (fun g => !(storeIds store).contains g.app_id)).length,
         (gs.filter (fun g => (storeIds store).contains g.app_id)).length) := by
  intro gs
  induction gs with
  | nil =>
    intro store _
    rfl
  | cons g0 rest ih =>
    intro store hnd
    rw [List.map_cons, List.nodup_cons] at hnd
    obtain ⟨hnd0, hndr⟩ := hnd
    by_cases hmem : g0.app_id ∈ storeIds store
    · obtain ⟨e, he⟩ := findGame_isSome_iff.mpr hmem
      simp only [upsertGames] at *
      rw [upsertCore_found_snd _ _ _ he]
      have hids : storeIds (updateFirstGame store g0.app_id
          (fun e => { e with name := g0.name, is_active := true, updated_at := now })) =
          storeIds store :=
        storeIds_updateFirstGame
          (fun e => { e with name := g0.name, is_active := true, updated_at := now })
          (fun _ => rfl) _ _
      rw [ih _ hndr, hids, List.filter_cons, List.filter_cons]
      have hc : ((storeIds store).contains g0.app_id) = true := by
        simpa [List.contains] using hmem
      rw [hc]
      simp
    · have he : findGame store g0.app_id = none := findGame_eq_none_iff.mpr hmem
      simp only [upsertGames] at *
      rw [upsertCore_notfound_snd _ _ _ he, ih _ hndr]
      have hcongr : ∀ q : Bool → Bool,
          rest.filter (fun g => q ((storeIds (store ++ [g0])).contains g.app_id)) =
          rest.filter (fun g => q ((storeIds store).contains g.app_id)) := by
        intro q
        apply List.filter_congr
        intro x hx
        have hxne : x.app_id ≠ g0.app_id := by
          intro hcontra
          exact hnd0 (hcontra ▸ List.mem_map_of_mem _ hx)
        have hceq : (storeIds (store ++ [g0])).contains x.app_id =
            (storeIds store).contains x.app_id := by
          simp only [List.contains, storeIds, List.map_append, List.map_cons,
            List.map_nil, List.elem_eq_mem, List.mem_append, List.mem_singleton]
          simp [hxne]
        rw [hceq]
      rw [hcongr (fun b => !b), hcongr (fun b => b),
        List.filter_cons, List.filter_cons]
      have hc : ((storeIds store).contains g0.app_id) = false := by
        simpa [List.contains] using hmem
      rw [hc]
      simp [Nat.add_comm]

/-! ## Reconciler lemmas: the save entry points -/

/-- Helper: the table after a reconciliation with the sweep enabled. -/
theorem save_games_fst_true (now : Nat) (games : List Game) (store : GameStore) :
    (save_games_to_database now games store true).1 =
      (deactivateSweep now (games.map (·.app_id))
        (upsertGames now games store).1).1 :=
  rfl

/-- Helper: the table after a reconciliation with the sweep disabled. -/
theorem save_games_fst_false (now : Nat) (games : List Game) (store : GameStore) :
    (save_games_to_database now games store false).1 =
      (upsertGames now games store).1 :=
  rfl

/-- Helper: the counts of a reconciliation with the sweep enabled. -/
theorem save_games_snd_true (now : Nat) (games : List Game) (store : GameStore) :
    (save_games_to_database now games store true).2 =
      ⟨(upsertGames now games store).2.1, (upsertGames now games store).2.2,
        (deactivateSweep now (games.map (·.app_id))
          (upsertGames now games store).1).2⟩ :=
  rfl

/-- Helper: the counts of a reconciliation with the sweep disabled. -/
theorem save_games_snd_false (now : Nat) (games : List Game) (store : GameStore) :
    (save_games_to_database now games store false).2 =
      ⟨(upsertGames now games store).2.1, (upsertGames now games store).2.2, 0⟩ :=
  rfl

/-- Helper: a fresh active row is active after its reconciliation,
whatever the sweep flag. -/
theorem save_sets_active (now : Nat) (pg : List Game) (store : GameStore)
    (d : Bool) (g : Game) (hg : g ∈ pg) (hact : g.is_active = true) :
    ActiveIn (save_games_to_database now pg store d).1 g.app_id := by
  have hup : ActiveIn (upsertGames now pg store).1 g.app_id :=
    upsertCore_sets_active
      (fun g e => { e with name := g.name, is_active := true, updated_at := now })
      (fun _ _ => 1) (fun g => g)
      (fun _ _ => rfl) (fun _ _ => rfl) (fun _ => rfl) pg store g hg hact
  cases d with
  | false => exact hup
  | true =>
    rw [save_games_fst_true]
    exact ActiveIn_sweepCore _ (List.mem_map_of_mem _ hg) hup

/-- Helper: a reconciliation without the sweep never loses an active row. -/
theorem save_false_preserves_active (now : Nat) (pg : List Game)
    (store : GameStore) (aid : Int) (h : ActiveIn store aid) :
    ActiveIn (save_games_to_database now pg store false).1 aid := by
  rw [save_games_fst_false]
  exact ActiveIn_upsertCore
    (fun g e => { e with name := g.name, is_active := true, updated_at := now })
    (fun _ _ => 1) (fun g => g)
    (fun _ _ => rfl) (fun _ _ => rfl) pg store aid h

/-- Helper: the pages after the first never deactivate anything. -/
theorem runFrom_preserves_active (now : Nat) :
    ∀ (pages : List (List Game)) (page : Nat) (st : GameStore) (aid : Int),
      1 ≤ page → ActiveIn st aid →
      ActiveIn (runListingFrom now page pages st) aid := by
  intro pages
  induction pages with
  | nil =>
    intro page st aid _ h
    exact h
  | cons pg rest ih =>
    intro page st aid hpage h
    have hflag : (page == 0) = false := by
      rw [beq_eq_false_iff_ne]
      omega
    show ActiveIn (runListingFrom now (page + 1) rest
      (save_games_to_database now pg st (page == 0)).1) aid
    rw [hflag]
    exact ih (page + 1) _ aid (by omega)
      (save_false_preserves_active now pg st aid h)

/-- Helper: every row of every page of a completed run is active at the
end of the run, whatever page counter the run started from. -/
theorem runFrom_page_items_active (now : Nat) :
    ∀ (pages : List (List Game)) (page : Nat) (st : GameStore),
      (∀ pg ∈ pages, ∀ g ∈ pg, g.is_active = true) →
      ∀ pg ∈ pages, ∀ g ∈ pg,
        ActiveIn (runListingFrom now page pages st) g.app_id := by
  intro pages
  induction pages with
  | nil =>
    intro page st _ pg hpg
    cases hpg
  | cons pg0 rest ih =>
    intro page st hact pg hpg g hg
    rcases List.mem_cons.mp hpg with rfl | hpgrest
    · show ActiveIn (runListingFrom now (page + 1) rest
        (save_games_to_database now pg st (page == 0)).1) g.app_id
      exact runFrom_preserves_active now rest (page + 1) _ _ (by omega)
        (save_sets_active now pg st _ g hg
          (hact pg (List.mem_cons_self _ _) g hg))
    · exact ih (page + 1) _
        (fun p hp => hact p (List.mem_cons_of_mem _ hp)) pg hpgrest g hg

/-- Helper: the table of SteamCollector reconciliation. -/
theorem save_games_sc_fst (games : List Game) (store : GameStore) :
    (save_games_sc games store).1 =
      (deactivateSweepSC (games.map (·.app_id)) (upsertGamesSC games store).1).1 :=
  rfl

/-- Helper: the counts of SteamCollector reconciliation. -/
theorem save_games_sc_snd (games : List Game) (store : GameStore) :
    (save_games_sc games store).2 =
      ⟨(upsertGamesSC games store).2.1, (upsertGamesSC games store).2.2,
        (deactivateSweepSC (games.map (·.app_id)) (upsertGamesSC games store).1).2⟩ :=
  rfl

/-! ## Theorems for claim C4 (idempotent reconciliation) -/

/-- C4, counterexample to the claim as stated: reconciling the same
single-item fresh set twice through the listing reconciler reports one
update on the second call, not zero, because its update branch counts
every existing row unconditionally even when nothing changed. -/
theorem reconcile_second_call_counterexample :
    (save_games_to_database 1 [⟨1, "A", true, 0⟩]
        (save_games_to_database 0 [⟨1, "A", true, 0⟩] [] true).1 true).2.updated_games = 1 ∧
    ¬ ((save_games_to_database 1 [⟨1, "A", true, 0⟩]
        (save_games_to_database 0 [⟨1, "A", true, 0⟩] [] true).1 true).2.updated_games = 0) :=
  ⟨by decide, by decide⟩

/-- C4, amended: re-reconciling an identical fresh set is idempotent on
the reported created and deactivated tallies but not on the updated tally
of the listing reconciler, which reports one update per fresh row (it
counts unconditionally); the SteamCollector variant, which counts only
actual changes, reports zero in all three tallies on the second call and
returns the store unchanged. -/
theorem reconcile_idempotent_counts (now1 now2 : Nat) (fresh : List Game)
    (store : GameStore) (d : Bool)
    (hnd : (fresh.map (·.app_id)).Nodup) :
    ((save_games_to_database now2 fresh
        (save_games_to_database now1 fresh store d).1 d).2 =
      ⟨0, fresh.length, 0⟩) ∧
    (save_games_sc fresh (save_games_sc fresh store).1 =
      ((save_games_sc fresh store).1, ⟨0, 0, 0⟩)) := by
  constructor
  · have hpresent : ∀ g ∈ fresh, g.app_id ∈ storeIds
        (save_games_to_database now1 fresh store d).1 := by
      intro g hg
      have hup : g.app_id ∈ storeIds (upsertGames now1 fresh store).1 := by
        apply (storeIds_upsertCore
          (fun g e => { e with name := g.name, is_active := true, updated_at := now1 })
          (fun _ _ => 1) (fun g => g)
          (fun _ _ => rfl) (fun _ => rfl) fresh store _).mpr
        exact Or.inr (List.mem_map_of_mem _ hg)
      cases d with
      | false => exact hup
      | true =>
        rw [save_games_fst_true]
        have hids := storeIds_sweepCore
          (fun g => { g with is_active := false, updated_at := now1 })
          (fun _ => rfl) (fresh.map (·.app_id)) (upsertGames now1 fresh store).1
        show g.app_id ∈ storeIds (sweepCore
          (fun g => { g with is_active := false, updated_at := now1 })
          (fresh.map (·.app_id)) (upsertGames now1 fresh store).1).1
        rw [hids]
        exact hup
    have hcounts := upsertGames_counts_present now2 fresh
      (save_games_to_database now1 fresh store d).1 hpresent
    have h1 : (upsertGames now2 fresh
        (save_games_to_database now1 fresh store d).1).2.1 = 0 := by
      rw [hcounts]
    have h2 : (upsertGames now2 fresh
        (save_games_to_database now1 fresh store d).1).2.2 = fresh.length := by
      rw [hcounts]
    cases d with
    | false =>
      rw [save_games_snd_false, h1, h2]
    | true =>
      have hactcur : ∀ x ∈ (upsertGames now2 fresh
          (save_games_to_database now1 fresh store true).1).1,
          x.is_active = true → x.app_id ∈ fresh.map (·.app_id) := by
        intro x hx hxa
        rcases upsertCore_active_post
          (fun g e => { e with name := g.name, is_active := true, updated_at := now2 })
          (fun _ _ => 1) (fun g => g)
          (fun _ _ => rfl) (fun _ => rfl) fresh _ x hx with h | h
        · exact h
        · have h' : x ∈ (sweepCore
              (fun g => { g with is_active := false, updated_at := now1 })
              (fresh.map (·.app_id)) (upsertGames now1 fresh store).1).1 := by
            rw [save_games_fst_true] at h
            simp only [deactivateSweep] at h
            exact h
          exact sweepCore_post
            (fun g => { g with is_active := false, updated_at := now1 })
            (fun _ => rfl) (fresh.map (·.app_id))
            (upsertGames now1 fresh store).1 x h' hxa
      have hnoop := sweepCore_noop
        (fun g => { g with is_active := false, updated_at := now2 })
        (fresh.map (·.app_id))
        (upsertGames now2 fresh (save_games_to_database now1 fresh store true).1).1
        hactcur
      have h3 : (deactivateSweep now2 (fresh.map (·.app_id))
          (upsertGames now2 fresh
            (save_games_to_database now1 fresh store true).1).1).2 = 0 := by
        simp only [deactivateSweep]
        rw [hnoop]
      rw [save_games_snd_true, h1, h2, h3]
  · have hpost : ∀ g ∈ fresh, ∃ e,
        findGame (save_games_sc fresh store).1 g.app_id = some e ∧
        e.name = g.name ∧ e.is_active = true := by
      intro g hg
      obtain ⟨e, he, hn, ha⟩ := upsertCore_lookup_post
        (fun g e => { e with name := g.name, is_active := true })
        (fun g e => (if e.name ≠ g.name then 1 else 0) +
          (if e.is_active = false then 1 else 0))
        (fun g => { g with is_active := true })
        (fun _ _ => rfl) (fun _ _ => rfl) (fun _ _ => rfl) (fun _ => rfl)
        (fun _ => rfl) fresh store hnd (fun _ _ => rfl) g hg
      refine ⟨e, ?_, hn, ha⟩
      have he' : findGame (upsertGamesSC fresh store).1 g.app_id = some e := he
      have heid := (findGame_mem he').2
      have hmem : g.app_id ∈ fresh.map (·.app_id) := List.mem_map_of_mem _ hg
      show findGame (sweepCore (fun g => { g with is_active := false })
        (fresh.map (·.app_id)) (upsertGamesSC fresh store).1).1 g.app_id = some e
      rw [findGame_sweepCore (fun g => { g with is_active := false })
        (fun _ => rfl) (fresh.map (·.app_id)) (upsertGamesSC fresh store).1
        g.app_id, he', Option.map_some']
      congr 1
      apply if_neg
      rw [ha, heid]
      simp [List.contains, hmem]
    have hupnoop := upsertGamesSC_noop fresh (save_games_sc fresh store).1 hpost
    have hsweeppost : ∀ x ∈ (save_games_sc fresh store).1, x.is_active = true →
        x.app_id ∈ fresh.map (·.app_id) := by
      intro x hx hxa
      have hx' : x ∈ (sweepCore (fun g => { g with is_active := false })
          (fresh.map (·.app_id)) (upsertGamesSC fresh store).1).1 := by
        rw [save_games_sc_fst] at hx
        simp only [deactivateSweepSC] at hx
        exact hx
      exact sweepCore_post (fun g => { g with is_active := false }) (fun _ => rfl)
        (fresh.map (·.app_id)) (upsertGamesSC fresh store).1 x hx' hxa
    have hsweepnoop := sweepCore_noop (fun g => { g with is_active := false })
      (fresh.map (·.app_id)) (save_games_sc fresh store).1 hsweeppost
    have hr1 : (upsertGamesSC fresh (save_games_sc fresh store).1).1 =
        (save_games_sc fresh store).1 := by rw [hupnoop]
    have hr2 : (upsertGamesSC fresh (save_games_sc fresh store).1).2.1 = 0 := by
      rw [hupnoop]
    have hr3 : (upsertGamesSC fresh (save_games_sc fresh store).1).2.2 = 0 := by
      rw [hupnoop]
    refine Prod.ext ?_ ?_
    · rw [save_games_sc_fst, hr1]
      show (sweepCore (fun g => { g with is_active := false })
        (fresh.map (·.app_id)) (save_games_sc fresh store).1).1 =
        (save_games_sc fresh store).1
      rw [hsweepnoop]
    · rw [save_games_sc_snd, hr1, hr2, hr3]
      have hd2 : (deactivateSweepSC (fresh.map (·.app_id))
          (save_games_sc fresh store).1).2 = 0 := by
        simp only [deactivateSweepSC]
        rw [hsweepnoop]
      rw [hd2]

/-- C4 witness: reconcile_idempotent_counts at the one-item fresh set
reconciled twice into an initially empty store. -/
theorem reconcile_idempotent_counts_witness :
    ((([⟨1, "A", true, 0⟩] : List Game).map (·.app_id)).Nodup) ∧
    ((save_games_to_database 1 [⟨1, "A", true, 0⟩]
        (save_games_to_database 0 [⟨1, "A", true, 0⟩] [] true).1 true).2 =
      ⟨0, 1, 0⟩) ∧
    (save_games_sc [⟨1, "A", true, 0⟩]
        (save_games_sc [⟨1, "A", true, 0⟩] []).1 =
      ((save_games_sc [⟨1, "A", true, 0⟩] []).1, ⟨0, 0, 0⟩)) :=
  ⟨by decide,
   (reconcile_idempotent_counts 0 1 [⟨1, "A", true, 0⟩] [] true (by decide)).1,
   (reconcile_idempotent_counts 0 1 [⟨1, "A", true, 0⟩] [] true (by decide)).2⟩

/-! ## Theorems for claim C5 (deactivation scope across pages) -/

/-- C5, counterexample to the claim as stated: in a two-page run whose
first page holds item 1 and whose second page holds item 2, an item 2
that was active before the run is set inactive by the reconciliation of
page zero, while page one has not yet been fetched; the completed run
reactivates it. -/
theorem listing_transient_deactivation_counterexample :
    ActiveIn [⟨2, "B", true, 0⟩] 2 ∧
    runListing 9 [[⟨1, "A", true, 5⟩], [⟨2, "B", true, 5⟩]] [⟨2, "B", true, 0⟩] =
      runListingFrom 9 1 [[⟨2, "B", true, 5⟩]]
        (save_games_to_database 9 [⟨1, "A", true, 5⟩] [⟨2, "B", true, 0⟩] true).1 ∧
    ¬ ActiveIn
        (save_games_to_database 9 [⟨1, "A", true, 5⟩] [⟨2, "B", true, 0⟩] true).1 2 ∧
    ActiveIn
      (runListing 9 [[⟨1, "A", true, 5⟩], [⟨2, "B", true, 5⟩]] [⟨2, "B", true, 0⟩]) 2 :=
  ⟨by decide, rfl, by decide, by decide⟩

/-- C5, amended: the deactivation sweep runs only while reconciling the
first page, and reconciling any later page never turns an active row
inactive; moreover every item of every page of a completed run is active
once the run finishes.  However, an item of a later page that is absent
from the first page is transiently deactivated by the first-page sweep,
as the counterexample shows. -/
theorem listing_deactivation_first_page_only (now : Nat)
    (pages : List (List Game)) (store : GameStore) :
    (∀ (page : Nat) (st : GameStore) (aid : Int), 1 ≤ page →
      ActiveIn st aid → ActiveIn (runListingFrom now page pages st) aid) ∧
    ((∀ pg ∈ pages, ∀ g ∈ pg, g.is_active = true) →
      ∀ pg ∈ pages, ∀ g ∈ pg, ActiveIn (runListing now pages store) g.app_id) := by
  constructor
  · intro page st aid hpage h
    exact runFrom_preserves_active now pages page st aid hpage h
  · intro hact pg hpg g hg
    exact runFrom_page_items_active now pages 0 store hact pg hpg g hg

/-- C5 witness: listing_deactivation_first_page_only instantiated at a
one-page tail preserving an active row, and at a completed two-page run
whose second-page item ends active. -/
theorem listing_deactivation_first_page_only_witness :
    (1 ≤ 1 ∧ ActiveIn [⟨2, "B", true, 0⟩] 2 ∧
      ActiveIn (runListingFrom 4 1 [[⟨1, "A", true, 5⟩]] [⟨2, "B", true, 0⟩]) 2) ∧
    ActiveIn
      (runListing 4 [[⟨1, "A", true, 5⟩], [⟨2, "B", true, 5⟩]] [])
      (Game.mk 2 "B" true 5).app_id :=
  ⟨⟨by decide, by decide,
    (listing_deactivation_first_page_only 4 [[⟨1, "A", true, 5⟩]] []).1 1
      [⟨2, "B", true, 0⟩] 2 (by decide) (by decide)⟩,
   (listing_deactivation_first_page_only 4
      [[⟨1, "A", true, 5⟩], [⟨2, "B", true, 5⟩]] []).2
     (by decide) [⟨2, "B", true, 5⟩] (by decide) ⟨2, "B", true, 5⟩ (by decide)⟩

/-! ## Theorems for claim C7 (deactivation correctness) -/

/-- C7, confirmed: reconciling a fresh set with the sweep enabled leaves
inactive exactly the rows outside the fresh identifier set, keeps every
fresh item active under its fresh name, and the three reported tallies
count the created identifiers, the updated identifiers and the
deactivated identifiers, three pairwise disjoint sets. -/
theorem save_games_deactivation_correct (now : Nat) (fresh : List Game)
    (store : GameStore)
    (hnd : (fresh.map (·.app_id)).Nodup)
    (hact : ∀ g ∈ fresh, g.is_active = true) :
    (∀ x ∈ (save_games_to_database now fresh store true).1,
        x.app_id ∉ fresh.map (·.app_id) → x.is_active = false) ∧
    (∀ g ∈ fresh, ∃ e,
        findGame (save_games_to_database now fresh store true).1 g.app_id = some e ∧
        e.name = g.name ∧ e.is_active = true) ∧
    ((save_games_to_database now fresh store true).2 =
      ⟨(fresh.filter (fun g => !(storeIds store).contains g.app_id)).length,
       (fresh.filter (fun g => (storeIds store).contains g.app_id)).length,
       (store.filter (fun x =>
         x.is_active && !(fresh.map (·.app_id)).contains x.app_id)).length⟩) ∧
    (∀ aid : Int,
      ¬(aid ∈ (fresh.filter (fun g => !(storeIds store).contains g.app_id)).map (·.app_id) ∧
        aid ∈ (fresh.filter (fun g => (storeIds store).contains g.app_id)).map (·.app_id)) ∧
      ¬(aid ∈ (fresh.filter (fun g => !(storeIds store).contains g.app_id)).map (·.app_id) ∧
        aid ∈ (store.filter (fun x =>
          x.is_active && !(fresh.map (·.app_id)).contains x.app_id)).map (·.app_id)) ∧
      ¬(aid ∈ (fresh.filter (fun g => (storeIds store).contains g.app_id)).map (·.app_id) ∧
        aid ∈ (store.filter (fun x =>
          x.is_active && !(fresh.map (·.app_id)).contains x.app_id)).map (·.app_id))) := by
  refine ⟨?_, ?_, ?_, ?_⟩
  · intro x hx hout
    rw [save_games_fst_true] at hx
    simp only [deactivateSweep] at hx
    cases hxa : x.is_active with
    | false => rfl
    | true =>
      exact absurd (sweepCore_post
        (fun g => { g with is_active := false, updated_at := now })
        (fun _ => rfl) (fresh.map (·.app_id)) (upsertGames now fresh store).1
        x hx hxa) hout
  · intro g hg
    obtain ⟨e, he, hname, hacte⟩ := upsertCore_lookup_post
      (fun g e => { e with name := g.name, is_active := true, updated_at := now })
      (fun _ _ => 1) (fun g => g)
      (fun _ _ => rfl) (fun _ _ => rfl) (fun _ _ => rfl) (fun _ => rfl)
      (fun _ => rfl) fresh store hnd (fun x hx => hact x hx) g hg
    refine ⟨e, ?_, hname, hacte⟩
    have he' : findGame (upsertGames now fresh store).1 g.app_id = some e := he
    have heid := (findGame_mem he').2
    have hmem : g.app_id ∈ fresh.map (·.app_id) := List.mem_map_of_mem _ hg
    show findGame (sweepCore
      (fun g => { g with is_active := false, updated_at := now })
      (fresh.map (·.app_id)) (upsertGames now fresh store).1).1 g.app_id = some e
    rw [findGame_sweepCore
      (fun g => { g with is_active := false, updated_at := now })
      (fun _ => rfl) (fresh.map (·.app_id)) (upsertGames now fresh store).1
      g.app_id, he', Option.map_some']
    congr 1
    apply if_neg
    rw [hacte, heid]
    simp [List.contains, hmem]
  · have hcounts := upsertGames_counts_nodup now fresh store hnd
    have h1 : (upsertGames now fresh store).2.1 =
        (fresh.filter (fun g => !(storeIds store).contains g.app_id)).length := by
      rw [hcounts]
    have h2 : (upsertGames now fresh store).2.2 =
        (fresh.filter (fun g => (storeIds store).contains g.app_id)).length := by
      rw [hcounts]
    have hsweep : (deactivateSweep now (fresh.map (·.app_id))
        (upsertGames now fresh store).1).2 =
        ((upsertGames now fresh store).1.filter (fun x =>
          x.is_active && !(fresh.map (·.app_id)).contains x.app_id)).length := by
      simp only [deactivateSweep]
      exact sweepCore_snd _ _ _
    have hfilter : (upsertGames now fresh store).1.filter (fun x =>
        x.is_active && !(fresh.map (·.app_id)).contains x.app_id) =
        store.filter (fun x =>
          x.is_active && !(fresh.map (·.app_id)).contains x.app_id) := by
      apply filter_upsertCore
        (fun g e => { e with name := g.name, is_active := true, updated_at := now })
        (fun _ _ => 1) (fun g => g)
        (fun _ _ => rfl) (fun _ => rfl) _ fresh store
      intro g hg x hxid
      have hmem : g.app_id ∈ fresh.map (·.app_id) := List.mem_map_of_mem _ hg
      rw [hxid]
      simp [List.contains, hmem]
    rw [save_games_snd_true, h1, h2, hsweep, hfilter]
  · intro aid
    refine ⟨?_, ?_, ?_⟩
    · rintro ⟨hc, hu⟩
      obtain ⟨g1, hg1, hg1id⟩ := List.mem_map.mp hc
      obtain ⟨g2, hg2, hg2id⟩ := List.mem_map.mp hu
      obtain ⟨_, hp1⟩ := List.mem_filter.mp hg1
      obtain ⟨_, hp2⟩ := List.mem_filter.mp hg2
      rw [hg1id] at hp1
      rw [hg2id] at hp2
      simp [List.contains] at hp1 hp2
      exact hp1 hp2
    · rintro ⟨hc, hd⟩
      obtain ⟨g1, hg1, hg1id⟩ := List.mem_map.mp hc
      obtain ⟨x, hx, hxid⟩ := List.mem_map.mp hd
      obtain ⟨hg1f, _⟩ := List.mem_filter.mp hg1
      obtain ⟨_, hpx⟩ := List.mem_filter.mp hx
      rw [hxid] at hpx
      have hmem : aid ∈ fresh.map (·.app_id) := by
        rw [← hg1id]
        exact List.mem_map_of_mem _ hg1f
      simp [List.contains, hmem] at hpx
    · rintro ⟨hu, hd⟩
      obtain ⟨g1, hg1, hg1id⟩ := List.mem_map.mp hu
      obtain ⟨x, hx, hxid⟩ := List.mem_map.mp hd
      obtain ⟨hg1f, _⟩ := List.mem_filter.mp hg1
      obtain ⟨_, hpx⟩ := List.mem_filter.mp hx
      rw [hxid] at hpx
      have hmem : aid ∈ fresh.map (·.app_id) := by
        rw [← hg1id]
        exact List.mem_map_of_mem _ hg1f
      simp [List.contains, hmem] at hpx

/-- C7 witness: save_games_deactivation_correct at active items 1, 2, 3
reconciled against the fresh set of items 1 and 2; the last component
also evaluates the reported tallies on that input. -/
theorem save_games_deactivation_correct_witness :
    (((([⟨1, "A", true, 9⟩, ⟨2, "B", true, 9⟩] : List Game).map (·.app_id)).Nodup) ∧
      (∀ g ∈ ([⟨1, "A", true, 9⟩, ⟨2, "B", true, 9⟩] : List Game), g.is_active = true)) ∧
    (∀ x ∈ (save_games_to_database 9 [⟨1, "A", true, 9⟩, ⟨2, "B", true, 9⟩]
        [⟨1, "A", true, 0⟩, ⟨2, "B", true, 0⟩, ⟨3, "C", true, 0⟩] true).1,
      x.app_id ∉ ([⟨1, "A", true, 9⟩, ⟨2, "B", true, 9⟩] : List Game).map (·.app_id) →
        x.is_active = false) ∧
    (save_games_to_database 9 [⟨1, "A", true, 9⟩, ⟨2, "B", true, 9⟩]
        [⟨1, "A", true, 0⟩, ⟨2, "B", true, 0⟩, ⟨3, "C", true, 0⟩] true).2 =
      ⟨0, 2, 1⟩ :=
  ⟨⟨by decide, by decide⟩,
   (save_games_deactivation_correct 9 [⟨1, "A", true, 9⟩, ⟨2, "B", true, 9⟩]
      [⟨1, "A", true, 0⟩, ⟨2, "B", true, 0⟩, ⟨3, "C", true, 0⟩]
      (by decide) (by decide)).1,
   by
    have h := (save_games_deactivation_correct 9 [⟨1, "A", true, 9⟩, ⟨2, "B", true, 9⟩]
      [⟨1, "A", true, 0⟩, ⟨2, "B", true, 0⟩, ⟨3, "C", true, 0⟩]
      (by decide) (by decide)).2.2.1
    rw [h]
    decide⟩

/-! ## Theorems for claim C6 (not-found against failed) -/

/-- C6, confirmed: for both per-title collectors an empty payload, a falsy
identifier field, a missing response entry or a falsy success flag yields
a not_found record, while a raised transport exception yields a failed
record; every such record carries fetch_attempts one, and the collection
loops tally not_found and failed into separate counters. -/
theorem fetch_outcomes_not_found_vs_failed :
    (∀ (aid : Int) (e : PyError),
      (fetch_game_metadata aid (.error e)).fetch_status = statusFailed ∧
      (fetch_game_metadata aid (.error e)).fetch_attempts = 1) ∧
    (∀ aid : Int,
      (fetch_game_metadata aid (.ok .empty)).fetch_status = statusNotFound ∧
      (fetch_game_metadata aid (.ok .empty)).fetch_attempts = 1) ∧
    (∀ (aid : Int) (p : SsPayload), truthyOptInt p.appid = false →
      (fetch_game_metadata aid (.ok (.obj p))).fetch_status = statusNotFound ∧
      (fetch_game_metadata aid (.ok (.obj p))).fetch_attempts = 1) ∧
    (∀ (aid : Int) (e : PyError),
      (fetch_storefront_data aid (.error e)).fetch_status = statusFailed ∧
      (fetch_storefront_data aid (.error e)).fetch_attempts = 1) ∧
    (∀ (aid : Int) (resp : SfResponse), resp.lookup (toString aid) = none →
      (fetch_storefront_data aid (.ok resp)).fetch_status = statusNotFound ∧
      (fetch_storefront_data aid (.ok resp)).fetch_attempts = 1) ∧
    (∀ (aid : Int) (resp : SfResponse) (entry : SfEntry),
      resp.lookup (toString aid) = some entry → entry.success = false →
      (fetch_storefront_data aid (.ok resp)).fetch_status = statusNotFound ∧
      (fetch_storefront_data aid (.ok resp)).fetch_attempts = 1) ∧
    (∀ statuses : List String,
      (tallyStatuses statuses).not_found =
        (statuses.filter (fun st => st == statusNotFound)).length ∧
      (tallyStatuses statuses).failed_fetches =
        (statuses.filter (fun st =>
          st != statusSuccess && st != statusNotFound)).length ∧
      (tallyStatuses statuses).successful_fetches =
        (statuses.filter (fun st => st == statusSuccess)).length) := by
  refine ⟨?_, ?_, ?_, ?_, ?_, ?_, ?_⟩
  · intro aid e
    exact ⟨rfl, rfl⟩
  · intro aid
    exact ⟨rfl, rfl⟩
  · intro aid p hp
    constructor
    · simp [fetch_game_metadata, hp]
    · simp [fetch_game_metadata, hp]
  · intro aid e
    exact ⟨rfl, rfl⟩
  · intro aid resp hmiss
    constructor
    · simp [fetch_storefront_data, hmiss]
    · simp [fetch_storefront_data, hmiss]
  · intro aid resp entry hfound hsucc
    constructor
    · simp [fetch_storefront_data, hfound, hsucc]
    · simp [fetch_storefront_data, hfound, hsucc]
  · intro statuses
    induction statuses with
    | nil => exact ⟨rfl, rfl, rfl⟩
    | cons st rest ih =>
      obtain ⟨ih1, ih2, ih3⟩ := ih
      by_cases hsu : st = statusSuccess
      · constructor
        · simp [tallyStatuses, hsu, List.filter_cons, statusSuccess,
            statusNotFound, ih1]
        constructor
        · simp [tallyStatuses, hsu, List.filter_cons, statusSuccess,
            statusNotFound, ih2]
        · simp [tallyStatuses, hsu, List.filter_cons, statusSuccess, ih3]
      · by_cases hnf : st = statusNotFound
        · constructor
          · simp [tallyStatuses, hsu, hnf, List.filter_cons, statusSuccess,
              statusNotFound, ih1]
          constructor
          · simp [tallyStatuses, hsu, hnf, List.filter_cons, statusSuccess,
              statusNotFound, ih2]
          · simp [tallyStatuses, hsu, hnf, List.filter_cons, statusSuccess,
              statusNotFound, ih3]
        · constructor
          · simp [tallyStatuses, hsu, hnf, List.filter_cons, ih1]
          constructor
          · simp [tallyStatuses, hsu, hnf, List.filter_cons, ih2]
          · simp [tallyStatuses, hsu, hnf, List.filter_cons, ih3]

/-- C6 witness: the implication conjuncts of
fetch_outcomes_not_found_vs_failed instantiated at a falsy-identifier
payload, a response without an entry for identifier 730 and an entry with
a false success flag. -/
theorem fetch_outcomes_not_found_vs_failed_witness :
    (truthyOptInt (SsPayload.mk (some 0) none none none none none none none
        none PriceInput.absent TagsField.missing none none).appid = false ∧
      (fetch_game_metadata 730 (.ok (.obj (SsPayload.mk (some 0) none none
        none none none none none none PriceInput.absent TagsField.missing
        none none)))).fetch_status = statusNotFound ∧
      (fetch_game_metadata 730 (.ok (.obj (SsPayload.mk (some 0) none none
        none none none none none none PriceInput.absent TagsField.missing
        none none)))).fetch_attempts = 1) ∧
    (([] : SfResponse).lookup (toString (730 : Int)) = none ∧
      (fetch_storefront_data 730 (.ok ([] : SfResponse))).fetch_status =
        statusNotFound) ∧
    (([("730", SfEntry.mk false none)] : SfResponse).lookup
        (toString (730 : Int)) = some (SfEntry.mk false none) ∧
      (fetch_storefront_data 730
        (.ok ([("730", SfEntry.mk false none)] : SfResponse))).fetch_status =
        statusNotFound) :=
  ⟨⟨by decide,
    (fetch_outcomes_not_found_vs_failed.2.2.1 730
      (SsPayload.mk (some 0) none none none none none none none none
        PriceInput.absent TagsField.missing none none) (by decide)).1,
    (fetch_outcomes_not_found_vs_failed.2.2.1 730
      (SsPayload.mk (some 0) none none none none none none none none
        PriceInput.absent TagsField.missing none none) (by decide)).2⟩,
   ⟨by decide,
    (fetch_outcomes_not_found_vs_failed.2.2.2.2.1 730 [] (by decide)).1⟩,
   ⟨by decide,
    (fetch_outcomes_not_found_vs_failed.2.2.2.2.2.1 730
      [("730", SfEntry.mk false none)] (SfEntry.mk false none)
      (by decide) rfl).1⟩⟩

/-! ## Theorems for claim C10 (frame of the storefront update branch) -/

/-- Helper: storefront lookup unfolded over a table head. -/
theorem findSf_cons (r : StorefrontData) (rest : SfStore) (aid : Int) :
    findSf (r :: rest) aid =
      if r.app_id == aid then some r else findSf rest aid := by
  unfold findSf
  rw [List.find?_cons]
  cases hb : (r.app_id == aid) with
  | true => simp
  | false => simp

/-- Helper: storefront first-match replacement rewrites exactly the row
the lookup returns. -/
theorem findSf_updateFirstSf_self (f : StorefrontData → StorefrontData)
    {s : SfStore} {aid : Int} {e : StorefrontData}
    (hf : ∀ r, (f r).app_id = r.app_id) (h : findSf s aid = some e) :
    findSf (updateFirstSf s aid f) aid = some (f e) := by
  induction s with
  | nil => cases h
  | cons r rest ih =>
    rw [findSf_cons] at h
    show findSf (if r.app_id == aid then f r :: rest
      else r :: updateFirstSf rest aid f) aid = some (f e)
    by_cases hb : (r.app_id == aid) = true
    · rw [if_pos hb] at h
      cases h
      rw [if_pos hb, findSf_cons, if_pos (by rw [hf]; exact hb)]
    · rw [if_neg hb] at h
      rw [if_neg hb, findSf_cons, if_neg hb]
      exact ih h

/-- C10, counterexample to the claim as stated: on an upsert over an
existing row, the update branch does not write the last_updated
bookkeeping column either; the stored row keeps its old timestamp even
though the fresh record carries a newer one. -/
theorem storefront_update_last_updated_counterexample :
    (findSf (save_storefront_data_to_database
        [{ app_id := 10, last_updated := 8, fetch_status := "success",
           fetch_attempts := 1 }]
        [{ app_id := 10, last_updated := 3 }]).1 10 =
      some (updateStorefrontRow { app_id := 10, last_updated := 3 }
        { app_id := 10, last_updated := 8, fetch_status := "success",
          fetch_attempts := 1 })) ∧
    (updateStorefrontRow { app_id := 10, last_updated := 3 }
        { app_id := 10, last_updated := 8, fetch_status := "success",
          fetch_attempts := 1 }).last_updated = 3 ∧
    ¬ ((updateStorefrontRow { app_id := 10, last_updated := 3 }
        { app_id := 10, last_updated := 8, fetch_status := "success",
          fetch_attempts := 1 }).last_updated = 8) :=
  ⟨by decide, rfl, by decide⟩

/-- C10, amended: on an upsert whose key already exists, the stored row
becomes the update-branch image of the existing row: the screenshots,
movies and last_updated columns keep their previous values, while the
fourteen presentation columns and the fetch_status and fetch_attempts
columns are overwritten with the fresh values. -/
theorem storefront_update_frame (store : SfStore) (row existing : StorefrontData)
    (h : findSf store row.app_id = some existing) :
    (findSf (save_storefront_data_to_database [row] store).1 row.app_id =
      some (updateStorefrontRow existing row)) ∧
    (updateStorefrontRow existing row).screenshots = existing.screenshots ∧
    (updateStorefrontRow existing row).movies = existing.movies ∧
    (updateStorefrontRow existing row).last_updated = existing.last_updated ∧
    (updateStorefrontRow existing row).app_id = existing.app_id ∧
    (updateStorefrontRow existing row).short_description = row.short_description ∧
    (updateStorefrontRow existing row).detailed_description = row.detailed_description ∧
    (updateStorefrontRow existing row).is_free = row.is_free ∧
    (updateStorefrontRow existing row).required_age = row.required_age ∧
    (updateStorefrontRow existing row).website = row.website ∧
    (updateStorefrontRow existing row).header_image = row.header_image ∧
    (updateStorefrontRow existing row).release_date = row.release_date ∧
    (updateStorefrontRow existing row).developers = row.developers ∧
    (updateStorefrontRow existing row).publishers = row.publishers ∧
    (updateStorefrontRow existing row).genres = row.genres ∧
    (updateStorefrontRow existing row).categories = row.categories ∧
    (updateStorefrontRow existing row).supported_languages = row.supported_languages ∧
    (updateStorefrontRow existing row).price_overview = row.price_overview ∧
    (updateStorefrontRow existing row).pc_requirements = row.pc_requirements ∧
    (updateStorefrontRow existing row).fetch_status = row.fetch_status ∧
    (updateStorefrontRow existing row).fetch_attempts = row.fetch_attempts := by
  refine ⟨?_, rfl, rfl, rfl, rfl, rfl, rfl, rfl, rfl, rfl, rfl, rfl, rfl,
    rfl, rfl, rfl, rfl, rfl, rfl, rfl, rfl⟩
  simp only [save_storefront_data_to_database, h]
  exact findSf_updateFirstSf_self (fun existing => updateStorefrontRow existing row)
    (fun _ => rfl) h

/-- C10 witness: storefront_update_frame at a stored row carrying a
screenshots value and an old timestamp, upserted with a fresh success
record. -/
theorem storefront_update_frame_witness :
    (findSf [{ app_id := 10, last_updated := 3, screenshots := some "shots" }]
        (10 : Int) =
      some { app_id := 10, last_updated := 3, screenshots := some "shots" }) ∧
    (findSf (save_storefront_data_to_database
        [{ app_id := 10, fetch_status := "success", fetch_attempts := 1 }]
        [{ app_id := 10, last_updated := 3, screenshots := some "shots" }]).1
        (10 : Int) =
      some (updateStorefrontRow
        { app_id := 10, last_updated := 3, screenshots := some "shots" }
        { app_id := 10, fetch_status := "success", fetch_attempts := 1 })) ∧
    (updateStorefrontRow
        { app_id := 10, last_updated := 3, screenshots := some "shots" }
        { app_id := 10, fetch_status := "success", fetch_attempts := 1 }).screenshots =
      some "shots" :=
  ⟨by decide,
   (storefront_update_frame
      [{ app_id := 10, last_updated := 3, screenshots := some "shots" }]
      { app_id := 10, fetch_status := "success", fetch_attempts := 1 }
      { app_id := 10, last_updated := 3, screenshots := some "shots" }
      (by decide)).1,
   (storefront_update_frame
      [{ app_id := 10, last_updated := 3, screenshots := some "shots" }]
      { app_id := 10, fetch_status := "success", fetch_attempts := 1 }
      { app_id := 10, last_updated := 3, screenshots := some "shots" }
      (by decide)).2.1.trans rfl⟩

/-! ## Theorems for claim C2 (export selection) -/

/-- C2, counterexample to the claim as stated: the export query never
consults fetch_status, so an active item whose metadata row failed its
last fetch but sits in a million-plus owner bucket with non-empty tags is
included in the export. -/
theorem export_filter_fetch_status_counterexample :
    (get_master_json_data
      [⟨⟨77, "X", true, 0⟩,
        some { app_id := 77, owners_estimate := some "1,000,000 .. 2,000,000",
               tags_json := some [("Action", 5)], fetch_status := statusFailed,
               fetch_attempts := 1 }, none⟩]).map (fun r => r.appId) = [77] ∧
    statusFailed ≠ statusSuccess :=
  ⟨by decide, by decide⟩

/-- C2, amended: every record of the export array comes from a store row
that is active, has a metadata row whose owner estimate lies in the
million-plus allow-list and whose tags mapping is non-empty, and the
record itself carries non-empty tags; the fetch status of the metadata
row is not constrained. -/
theorem export_projection_membership (db : Db) (r : GameRecord)
    (hr : r ∈ get_master_json_data db) :
    ∃ row ∈ db, row.game.is_active = true ∧
      (∃ md, row.game_metadata = some md ∧
        (∃ s, md.owners_estimate = some s ∧ s ∈ million_plus_ranges) ∧
        (∃ ts, md.tags_json = some ts ∧ ts ≠ [])) ∧
      r = to_game_record row ∧ r.tags ≠ [] := by
  unfold get_master_json_data at hr
  obtain ⟨hmem, hpred⟩ := List.mem_filter.mp hr
  obtain ⟨row, hrow, hr_eq⟩ := List.mem_map.mp hmem
  have hrow_sorted : row ∈ (db.filter masterFilter).insertionSort byRank := by
    unfold masterSelectedRows at hrow
    exact List.take_subset _ _ hrow
  have hrow2 : row ∈ db.filter masterFilter :=
    (List.perm_insertionSort byRank _).mem_iff.mp hrow_sorted
  obtain ⟨hrowdb, hfilt⟩ := List.mem_filter.mp hrow2
  have htags : r.tags ≠ [] := by
    intro hcon
    rw [hcon] at hpred
    simp at hpred
  refine ⟨row, hrowdb, ?_, ?_, hr_eq.symm, htags⟩
  · unfold masterFilter at hfilt
    cases hmd : row.game_metadata with
    | none => rw [hmd] at hfilt; cases hfilt
    | some md =>
      rw [hmd] at hfilt
      simp only [Bool.and_eq_true] at hfilt
      exact hfilt.1.1.1
  · unfold masterFilter at hfilt
    cases hmd : row.game_metadata with
    | none => rw [hmd] at hfilt; cases hfilt
    | some md =>
      rw [hmd] at hfilt
      simp only [Bool.and_eq_true] at hfilt
      obtain ⟨⟨⟨_, howners⟩, htsome⟩, htne⟩ := hfilt
      refine ⟨md, rfl, ?_, ?_⟩
      · cases how : md.owners_estimate with
        | none => rw [how] at howners; cases howners
        | some s =>
          rw [how] at howners
          refine ⟨s, rfl, ?_⟩
          simpa [List.contains] using howners
      · obtain ⟨ts, hts⟩ := Option.isSome_iff_exists.mp htsome
        refine ⟨ts, hts, ?_⟩
        intro hcon
        rw [hts, hcon] at htne
        simp at htne

/-- C2 witness: export_projection_membership at a one-row store whose
metadata row succeeded, sits in a million-plus bucket and has tags. -/
theorem export_projection_membership_witness :
    (to_game_record
        ⟨⟨730, "X", true, 0⟩,
          some { app_id := 730, owners_estimate := some "1,000,000 .. 2,000,000",
                 tags_json := some [("Action", 5)], score_rank := some 1,
                 fetch_status := statusSuccess, fetch_attempts := 1 }, none⟩ ∈
      get_master_json_data
        [⟨⟨730, "X", true, 0⟩,
          some { app_id := 730, owners_estimate := some "1,000,000 .. 2,000,000",
                 tags_json := some [("Action", 5)], score_rank := some 1,
                 fetch_status := statusSuccess, fetch_attempts := 1 }, none⟩]) ∧
    (∃ row ∈ ([⟨⟨730, "X", true, 0⟩,
          some { app_id := 730, owners_estimate := some "1,000,000 .. 2,000,000",
                 tags_json := some [("Action", 5)], score_rank := some 1,
                 fetch_status := statusSuccess, fetch_attempts := 1 }, none⟩] : Db),
      row.game.is_active = true ∧
        (∃ md, row.game_metadata = some md ∧
          (∃ s, md.owners_estimate = some s ∧ s ∈ million_plus_ranges) ∧
          (∃ ts, md.tags_json = some ts ∧ ts ≠ [])) ∧
        to_game_record
          ⟨⟨730, "X", true, 0⟩,
            some { app_id := 730, owners_estimate := some "1,000,000 .. 2,000,000",
                   tags_json := some [("Action", 5)], score_rank := some 1,
                   fetch_status := statusSuccess, fetch_attempts := 1 }, none⟩ =
          to_game_record row ∧
        (to_game_record
          ⟨⟨730, "X", true, 0⟩,
            some { app_id := 730, owners_estimate := some "1,000,000 .. 2,000,000",
                   tags_json := some [("Action", 5)], score_rank := some 1,
                   fetch_status := statusSuccess, fetch_attempts := 1 }, none⟩).tags ≠ []) :=
  ⟨by decide,
   export_projection_membership
     [⟨⟨730, "X", true, 0⟩,
       some { app_id := 730, owners_estimate := some "1,000,000 .. 2,000,000",
              tags_json := some [("Action", 5)], score_rank := some 1,
              fetch_status := statusSuccess, fetch_attempts := 1 }, none⟩]
     (to_game_record
       ⟨⟨730, "X", true, 0⟩,
         some { app_id := 730, owners_estimate := some "1,000,000 .. 2,000,000",
                tags_json := some [("Action", 5)], score_rank := some 1,
                fetch_status := statusSuccess, fetch_attempts := 1 }, none⟩)
     (by decide)⟩

/-! ## Theorems for claim C9 (export order and cap) -/

/-- C9, counterexample to the claim as stated: on the SQLite backend the
scripts default to, ORDER BY score_rank ascending places a NULL rank
before every integer rank, so the unranked record comes first, not last.
-/
theorem export_order_nulls_counterexample :
    (get_master_json_data
      [⟨⟨1, "R", true, 0⟩,
        some { app_id := 1, owners_estimate := some "1,000,000 .. 2,000,000",
               tags_json := some [("Action", 5)], score_rank := some 5,
               fetch_status := statusSuccess, fetch_attempts := 1 }, none⟩,
       ⟨⟨2, "U", true, 0⟩,
        some { app_id := 2, owners_estimate := some "1,000,000 .. 2,000,000",
               tags_json := some [("Indie", 3)], score_rank := none,
               fetch_status := statusSuccess, fetch_attempts := 1 }, none⟩]).map
      (fun r => r.appId) = [2, 1] ∧
    (masterKeptRows
      [⟨⟨1, "R", true, 0⟩,
        some { app_id := 1, owners_estimate := some "1,000,000 .. 2,000,000",
               tags_json := some [("Action", 5)], score_rank := some 5,
               fetch_status := statusSuccess, fetch_attempts := 1 }, none⟩,
       ⟨⟨2, "U", true, 0⟩,
        some { app_id := 2, owners_estimate := some "1,000,000 .. 2,000,000",
               tags_json := some [("Indie", 3)], score_rank := none,
               fetch_status := statusSuccess, fetch_attempts := 1 }, none⟩]).map
      rowRank = [none, some 5] ∧
    ¬ List.Pairwise nullsLastLe
      ((masterKeptRows
        [⟨⟨1, "R", true, 0⟩,
          some { app_id := 1, owners_estimate := some "1,000,000 .. 2,000,000",
                 tags_json := some [("Action", 5)], score_rank := some 5,
                 fetch_status := statusSuccess, fetch_attempts := 1 }, none⟩,
         ⟨⟨2, "U", true, 0⟩,
          some { app_id := 2, owners_estimate := some "1,000,000 .. 2,000,000",
                 tags_json := some [("Indie", 3)], score_rank := none,
                 fetch_status := statusSuccess, fetch_attempts := 1 }, none⟩]).map
        rowRank) := by
  refine ⟨by decide, by decide, ?_⟩
  intro h
  have h2 : (masterKeptRows
      [⟨⟨1, "R", true, 0⟩,
        some { app_id := 1, owners_estimate := some "1,000,000 .. 2,000,000",
               tags_json := some [("Action", 5)], score_rank := some 5,
               fetch_status := statusSuccess, fetch_attempts := 1 }, none⟩,
       ⟨⟨2, "U", true, 0⟩,
        some { app_id := 2, owners_estimate := some "1,000,000 .. 2,000,000",
               tags_json := some [("Indie", 3)], score_rank := none,
               fetch_status := statusSuccess, fetch_attempts := 1 }, none⟩]).map
      rowRank = [none, some 5] := by decide
  rw [h2] at h
  exact (List.pairwise_cons.mp h).1 (some 5) (List.mem_cons_self _ _)

/-- C9, amended: the export array never exceeds 1000 records, is the
image of the kept rows of the capped, filtered query, and those rows come
out ordered by score_rank ascending with NULL ranks first, the SQLite
default order the scripts run under. -/
theorem export_order_and_cap (db : Db) :
    (get_master_json_data db).length ≤ 1000 ∧
    get_master_json_data db = (masterKeptRows db).map to_game_record ∧
    List.Pairwise (fun a b => optIntLe a b = true)
      ((masterKeptRows db).map rowRank) := by
  refine ⟨?_, ?_, ?_⟩
  · show ((((masterSelectedRows db).map to_game_record).filter
        (fun r => !r.tags.isEmpty)).length) ≤ 1000
    have h1 := List.length_filter_le (fun r => !r.tags.isEmpty)
      ((masterSelectedRows db).map to_game_record)
    have h2 : ((masterSelectedRows db).map to_game_record).length =
        (masterSelectedRows db).length := List.length_map _ _
    have h3 : (masterSelectedRows db).length ≤ 1000 := by
      unfold masterSelectedRows
      rw [List.length_take]
      omega
    omega
  · unfold get_master_json_data masterKeptRows
    rw [List.filter_map]
    rfl
  · have hsorted : List.Sorted byRank
        ((db.filter masterFilter).insertionSort byRank) :=
      List.sorted_insertionSort byRank _
    have htake : List.Sorted byRank (masterSelectedRows db) :=
      List.Pairwise.sublist (List.take_sublist _ _) hsorted
    have hkept : List.Sorted byRank (masterKeptRows db) :=
      List.Pairwise.sublist (List.filter_sublist _) htake
    exact List.pairwise_map.mpr hkept

/-- C1 witness: process_games_parallel_gather_semantics instantiated at a
single game with batch size one under an always-succeeding collector. -/
theorem process_games_parallel_gather_semantics_witness :
    (process_games_parallel (fun _ => .ok ()) none 1
        ([⟨1, "Game 1", true, 0⟩] : List Game) =
        .ok (chunkBatches 1 ([⟨1, "Game 1", true, 0⟩] : List Game)) ∧
      ∀ b ∈ chunkBatches 1 ([⟨1, "Game 1", true, 0⟩] : List Game),
        process_batch (fun _ => .ok ()) none b = .ok b) ∨
    (∃ e, process_games_parallel (fun _ => .ok ()) none 1
        ([⟨1, "Game 1", true, 0⟩] : List Game) = .error e ∧
      ∃ b ∈ chunkBatches 1 ([⟨1, "Game 1", true, 0⟩] : List Game),
        process_batch (fun _ => .ok ()) none b = .error e) :=
  process_games_parallel_gather_semantics (fun _ => .ok ()) none 1
    ([⟨1, "Game 1", true, 0⟩] : List Game)

/-- C9 witness: export_order_and_cap instantiated at the empty store. -/
theorem export_order_and_cap_witness :
    (get_master_json_data ([] : Db)).length ≤ 1000 ∧
    get_master_json_data ([] : Db) = (masterKeptRows ([] : Db)).map to_game_record ∧
    List.Pairwise (fun a b => optIntLe a b = true)
      ((masterKeptRows ([] : Db)).map rowRank) :=
  export_order_and_cap ([] : Db)

end EndlessGaming
